import Mathlib

/-!
# rfid-app: frame codec and device session

A shallow embedding of `rfid/comms.go` and `rfid/device.go`.

Conventions of the embedding:

* a Go `byte` is a `Nat` below 256, a `uint16` a `Nat` below 65536; conversions
  that truncate in Go carry an explicit `%`;
* a Go slice is a `List Nat`; an operation that indexes or slices is checked
  and returns `none` where Go would panic with an index out of range, so a
  function whose body indexes returns an `Option`;
* a returned `[]byte` or `error` that may be `nil` is an `Option`, with `none`
  for `nil`; a slice argument is a plain list, since `len`, `copy` and `range`
  treat `nil` as empty;
* a `time.Duration` is an `Int` number of nanoseconds;
* the serial port is a record of the outcome of `Write`, the bytes the device
  will still deliver, and the log of the `Write` calls made so far;
* the `debug` printing of `RawCommand` has no effect on any returned value or
  on the port and is left out.
-/

namespace Rfid

/-! ## Constants (`comms.go`) -/

/-- Status value `StatusOK`. -/
def StatusOK : Nat := 0x00
/-- Status value `StatusNoTag`. -/
def StatusNoTag : Nat := 0x01

/-- Command code `CommandInfo`. -/
def CommandInfo : Nat := 0x0102
/-- Command code `CommandBeep`. -/
def CommandBeep : Nat := 0x0103
/-- Command code `CommandLed`. -/
def CommandLed : Nat := 0x0104
/-- Command code `CommandRead`. -/
def CommandRead : Nat := 0x010C
/-- Command code `CommandWrite2`. -/
def CommandWrite2 : Nat := 0x020C
/-- Command code `CommandWrite3`. -/
def CommandWrite3 : Nat := 0x030C

/-- LED mode `LedOff`. -/
def LedOff : Nat := 0x00
/-- LED mode `LedRed`. -/
def LedRed : Nat := 0x01
/-- LED mode `LedGreen`. -/
def LedGreen : Nat := 0x02

/-- Nanoseconds in `time.Second`. -/
def Second : Int := 1000000000

/-- The constant `beepUnit = time.Second / 255`, an integer number of nanoseconds. -/
def beepUnit : Int := Int.tdiv Second 255

/-- The constant `msgPrefix`. -/
def msgPrefix : Nat := 0xAADD

/-! ## Checked slice operations -/

/-- Go `buf[i]`: `none` is the index-out-of-range panic. -/
def index (buf : List Nat) (i : Nat) : Option Nat := buf[i]?

/-- Go `buf[lo:hi]`: `none` is the slice-bounds panic. -/
def slice (buf : List Nat) (lo hi : Nat) : Option (List Nat) :=
  if lo ≤ hi ∧ hi ≤ buf.length then some ((buf.take hi).drop lo) else none

/-- Go `buf[pos] = v`: `none` is the index-out-of-range panic. -/
def setIndex (buf : List Nat) (pos v : Nat) : Option (List Nat) :=
  if pos < buf.length then some (buf.set pos v) else none

/-- Go `binary.BigEndian.PutUint16(buf[pos:], v)`: writes `byte(v >> 8)` and
`byte(v)` at `pos` and `pos + 1`; `none` when the slice is shorter than two bytes. -/
def PutUint16 (buf : List Nat) (pos v : Nat) : Option (List Nat) :=
  if pos + 2 ≤ buf.length then
    some ((buf.set pos (v / 256 % 256)).set (pos + 1) (v % 256))
  else none

/-- Go `binary.BigEndian.Uint16(b)`: `b[1] | b[0] << 8`; `none` when `b` is
shorter than two bytes. -/
def Uint16 (b : List Nat) : Option Nat :=
  match b with
  | b0 :: b1 :: _ => some (b0 * 256 + b1)
  | _ => none

/-- Go builtin `copy(dst[pos:], src)`: copies `min(len(dst) - pos, len(src))`
bytes and returns the buffer with that count; `none` when `pos > len(dst)`. -/
def copy (dst : List Nat) (pos : Nat) (src : List Nat) : Option (List Nat × Nat) :=
  if pos ≤ dst.length then
    let n := min (dst.length - pos) src.length
    some (dst.take pos ++ src.take n ++ dst.drop (pos + n), n)
  else none

/-! ## Frame codec (`comms.go`) -/

/-- The function `xorChecksum`: running exclusive-or of the bytes, from zero. -/
def xorChecksum (buf : List Nat) : Nat :=
  buf.foldl (fun csum b => csum ^^^ b) 0

/-- The function `copyUint16(buf[pos:], n)`: the buffer after the write, and 2. -/
def copyUint16 (buf : List Nat) (pos n : Nat) : Option (List Nat × Nat) :=
  (PutUint16 buf pos n).map fun buf1 => (buf1, 2)

/-- The function `newRequest`. `cmd` is a `uint16`; the length is converted with
`uint16(2+len(data)+1)`, which truncates. -/
def newRequest (cmd : Nat) (data : List Nat) : Option (List Nat) := do
  let buf := List.replicate (2 + 2 + 2 + data.length + 1) 0
  let pos := 0
  let (buf, n) ← copyUint16 buf pos msgPrefix
  let pos := pos + n
  let (buf, n) ← copyUint16 buf pos ((2 + data.length + 1) % 65536)
  let pos := pos + n
  let (buf, n) ← copyUint16 buf pos (cmd % 65536)
  let pos := pos + n
  let (buf, n) ← copy buf pos data
  let pos := pos + n
  let covered ← slice buf 4 pos
  setIndex buf pos (xorChecksum covered)

/-- The errors `io.ReadAtLeast` reports when the stream ends early. -/
inductive IoError
  | EOF
  | ErrUnexpectedEOF
  deriving DecidableEq, Repr

/-- The text of an `IoError`. -/
def IoError.Error : IoError → String
  | .EOF => "EOF"
  | .ErrUnexpectedEOF => "unexpected EOF"

/-- The error values `rx` creates, one constructor per `return nil, ...` of its body. -/
inductive RxError
  | headerRead (err : IoError)
  | badHeader
  | invalidLength
  | payloadRead (err : IoError)
  | badChecksum
  deriving DecidableEq, Repr

/-- The text of an `RxError`, as built by `fmt.Errorf` and `errors.New` in `rx`. -/
def RxError.Error : RxError → String
  | .headerRead err => "header read error: " ++ err.Error
  | .badHeader => "bad response header"
  | .invalidLength => "invalid payload length value"
  | .payloadRead err => "payload read error: " ++ err.Error
  | .badChecksum => "response have invalid checksum"

/-- Go `io.ReadAtLeast(r, buf, min)` where `len(buf) = min = n`, as in both calls
of `rx`, on a reader that delivers the bytes `r` and then reports the end of the
stream: the bytes stored in `buf`, the error, and the reader afterwards. Exactly
`n` bytes are read when there are that many; otherwise the reader is drained and
the error is `EOF` when nothing was read, `ErrUnexpectedEOF` when something was. -/
def ReadAtLeast (r : List Nat) (n : Nat) : List Nat × Option IoError × List Nat :=
  if n ≤ r.length then (r.take n, none, r.drop n)
  else if r.length = 0 then ([], some IoError.EOF, [])
  else (r, some IoError.ErrUnexpectedEOF, [])

/-- The function `rx` on a reader that delivers the bytes `r`: the returned
`([]byte, error)` pair and the reader afterwards; `none` is a panic. -/
def rx (r : List Nat) : Option ((Option (List Nat) × Option RxError) × List Nat) :=
  let header := List.replicate 4 0
  match ReadAtLeast r header.length with
  | (_, some err, r) => some ((none, some (RxError.headerRead err)), r)
  | (header, none, r) => do
    let pos := header.length
    let pfx ← Uint16 header
    if pfx ≠ msgPrefix then
      return ((none, some RxError.badHeader), r)
    let length ← Uint16 (← slice header 2 header.length)
    if length < 4 then
      return ((none, some RxError.invalidLength), r)
    let buf := header ++ List.replicate length 0
    match ReadAtLeast r length with
    | (_, some err, r) => return ((none, some (RxError.payloadRead err)), r)
    | (payload, none, r) =>
      let buf := buf.take pos ++ payload
      let last ← index buf (buf.length - 1)
      let covered ← slice buf 4 (buf.length - 1)
      if last ≠ xorChecksum covered then
        return ((none, some RxError.badChecksum), r)
      return ((some buf, none), r)

/-! ## Device session (`device.go`) -/

/-- The error values of `device.go`: the variable `ErrNoTag`, and one constructor
per `fmt.Errorf` call. An error built by `fmt.Errorf` is never `ErrNoTag`. -/
inductive DeviceError
  | ErrNoTag
  | sending (err : String)
  | reading (err : RxError)
  | unexpectedStatus (status : Nat)
  | unexpectedStatusAnswer (status : Nat) (answer : Option (List Nat))
  deriving DecidableEq, Repr

/-- Go `%v` of a `[]byte`: the decimal values between brackets, space separated. -/
def fmtBytes (b : Option (List Nat)) : String :=
  "[" ++ " ".intercalate ((b.getD []).map toString) ++ "]"

/-- The text of a `DeviceError`. -/
def DeviceError.Error : DeviceError → String
  | .ErrNoTag => "rfid: no tag detected"
  | .sending err => "rfid: error sending command: " ++ err
  | .reading err => "rfid: error reading response: " ++ err.Error
  | .unexpectedStatus status => "rfid: received unexpected status " ++ toString status
  | .unexpectedStatusAnswer status answer =>
    "rfid: received unexpected status " ++ toString status ++ ", answer " ++ fmtBytes answer

/-- The serial port of a `Device`: the error its `Write` returns (`none` when the
write succeeds), the bytes the device delivers to `Read` before the stream ends,
and the arguments of the `Write` calls made so far. -/
structure Port where
  writeErr : Option String
  input : List Nat
  writes : List (List Nat)
  deriving DecidableEq, Repr

/-- The method `Device.RawCommand`: the returned `(status, answer, err)` and the
port afterwards; `none` is a panic. -/
def RawCommand (d : Port) (cmd : Nat) (data : List Nat) :
    Option ((Nat × Option (List Nat) × Option DeviceError) × Port) := do
  let req ← newRequest cmd data
  let d := { d with writes := d.writes ++ [req] }
  match d.writeErr with
  | some err => return ((0, none, some (DeviceError.sending err)), d)
  | none =>
    match ← rx d.input with
    | ((_, some err), r) =>
      return ((0, none, some (DeviceError.reading err)), { d with input := r })
    | ((resp, none), r) =>
      let resp := resp.getD []
      let status ← index resp 6
      let answer ← slice resp 7 (resp.length - 1)
      return ((status, some answer, none), { d with input := r })

/-- The method `Device.Info`; the returned string is its byte sequence. -/
def Info (d : Port) : Option ((List Nat × Option DeviceError) × Port) := do
  let ((status, answer, err), d) ← RawCommand d CommandInfo []
  if err ≠ none then
    return (([], err), d)
  if status ≠ StatusOK then
    return (([], some (DeviceError.unexpectedStatus status)), d)
  return ((answer.getD [], none), d)

/-- Go `byte(units)` for an `int`: the low eight bits. -/
def toByte (units : Int) : Nat := (units % 256).toNat

/-- The unit count `Device.Beep` computes before converting it to a byte
(`duration / beepUnit` truncates toward zero; `int` is 64 bits wide, so the
conversion of the quotient to `int` keeps its value). -/
def beepUnits (duration : Int) : Int :=
  let units := Int.tdiv duration beepUnit
  let units := if duration ≠ 0 ∧ units = 0 then 1 else units
  let units := if units > 255 then 255 else units
  units

/-- The data `Device.Beep` passes to `RawCommand`: `[]byte{byte(units)}`. -/
def beepData (duration : Int) : List Nat := [toByte (beepUnits duration)]

/-- The method `Device.Beep`. -/
def Beep (d : Port) (duration : Int) : Option (Option DeviceError × Port) := do
  let ((status, _, err), d) ← RawCommand d CommandBeep (beepData duration)
  if err ≠ none then
    return (err, d)
  if status ≠ StatusOK then
    return (some (DeviceError.unexpectedStatus status), d)
  return (none, d)

/-- The method `Device.ChangeLed`; `mode` is a `LedMode`, a byte. -/
def ChangeLed (d : Port) (mode : Nat) : Option (Option DeviceError × Port) := do
  let ((status, _, err), d) ← RawCommand d CommandLed [mode % 256]
  if err ≠ none then
    return (err, d)
  if status ≠ StatusOK then
    return (some (DeviceError.unexpectedStatus status), d)
  return (none, d)

/-- The method `Device.ReadTag`. -/
def ReadTag (d : Port) : Option ((Option (List Nat) × Option DeviceError) × Port) := do
  let ((status, answer, err), d) ← RawCommand d CommandRead []
  if err ≠ none then
    return ((none, err), d)
  if status = StatusOK then
    return ((answer, none), d)
  else if status = StatusNoTag then
    return ((none, some DeviceError.ErrNoTag), d)
  else
    return ((none, some (DeviceError.unexpectedStatusAnswer status answer)), d)

/-! ## Closed form of the encoder -/

/-- The bytes `newRequest` covers with its checksum: the command field, then the data. -/
def covered (cmd : Nat) (data : List Nat) : List Nat :=
  cmd % 65536 / 256 % 256 :: cmd % 65536 % 256 :: data

/-- The frame layout: prefix, length, command, data, checksum. -/
def frame (cmd : Nat) (data : List Nat) : List Nat :=
  [0xAA, 0xDD, (2 + data.length + 1) % 65536 / 256 % 256, (2 + data.length + 1) % 65536 % 256]
    ++ covered cmd data ++ [xorChecksum (covered cmd data)]

/-! ## What `Beep` sends -/

/-- `Beep` called with `duration` sends `data`: on every port it returns without
a panic, having called `Write` once more, with `newRequest(CommandBeep, data)`. -/
def BeepSends (duration : Int) (data : List Nat) : Prop :=
  ∀ p : Port, ∃ res p1 req, Beep p duration = some (res, p1) ∧
    newRequest CommandBeep data = some req ∧ p1.writes = p.writes ++ [req]

/-- The unit count as the specification words it: `min(255, round(d / unit))`,
with `round` to the nearest integer. -/
def specUnits (d : Int) (unit : ℚ) : Int := min 255 (round ((d : ℚ) / unit))

/-! ## Well-framed streams -/

/-- The big-endian length declared in bytes 3-4 of a stream. -/
def declaredLength (s : List Nat) : Nat := s.getD 2 0 * 256 + s.getD 3 0

/-- The condition under which the specification lets a stream `s` decode: at least
4 bytes, `s[0..1] = AA DD`, declared length `L >= 4`, at least `4+L` bytes, and
`s[4+L-1]` equal to the exclusive-or of `s[4 .. 4+L-2]`. -/
def wellFramed (s : List Nat) : Prop :=
  4 ≤ s.length ∧ s.getD 0 0 = 0xAA ∧ s.getD 1 0 = 0xDD ∧ 4 ≤ declaredLength s ∧
  4 + declaredLength s ≤ s.length ∧
  s.getD (4 + declaredLength s - 1) 0
    = xorChecksum ((s.take (4 + declaredLength s - 1)).drop 4)

instance (s : List Nat) : Decidable (wellFramed s) := by
  unfold wellFramed
  exact inferInstance

/-! ## Single-bit corruption -/

/-- The stream `r` with bit `k` of the byte at index `i` flipped. -/
def flipBit (r : List Nat) (i k : Nat) : List Nat :=
  r.set i (r.getD i 0 ^^^ 2 ^ k)

/-! ## The encoder -/

theorem drop_six_add (a b c d e f n : Nat) (l r : List Nat) (h : l.length = n) :
    List.drop (6 + n) (a :: b :: c :: d :: e :: f :: (l ++ r)) = r := by
  subst h
  rw [show 6 + l.length = l.length + 1 + 1 + 1 + 1 + 1 + 1 by omega]
  simp

theorem take_six_add (a b c d e f n : Nat) (l r : List Nat) (h : l.length = n) :
    List.take (6 + n) (a :: b :: c :: d :: e :: f :: (l ++ r))
      = a :: b :: c :: d :: e :: f :: l := by
  subst h
  rw [show 6 + l.length = l.length + 1 + 1 + 1 + 1 + 1 + 1 by omega]
  simp

theorem set_six_add (a b c d e f n x v : Nat) (l : List Nat) (h : l.length = n) :
    (a :: b :: c :: d :: e :: f :: (l ++ [x])).set (6 + n) v
      = a :: b :: c :: d :: e :: f :: (l ++ [v]) := by
  subst h
  rw [show 6 + l.length = l.length + 1 + 1 + 1 + 1 + 1 + 1 by omega]
  simp

theorem newRequest_eq_frame (cmd : Nat) (data : List Nat) :
    newRequest cmd data = some (frame cmd data) := by
  have hrep : List.replicate (2 + 2 + 2 + data.length + 1) 0
      = 0 :: 0 :: 0 :: 0 :: 0 :: 0 :: (List.replicate data.length 0 ++ [0]) := by
    have : 2 + 2 + 2 + data.length + 1 = 6 + (data.length + 1) := by omega
    rw [this, List.replicate_add, List.replicate_succ' data.length]
    rfl
  have hlen : (List.replicate data.length 0).length = data.length := List.length_replicate _ _
  have hmin : data.length + 1 + 1 + 1 + 1 + 1 + 1 + 1 - (6 + data.length) = 1 := by omega
  simp only [newRequest, hrep, copyUint16, PutUint16, copy, slice, setIndex, msgPrefix]
  simp [frame, covered, drop_six_add _ _ _ _ _ _ _ _ _ hlen, hmin,
    take_six_add _ _ _ _ _ _ _ _ _ rfl, set_six_add _ _ _ _ _ _ _ _ _ _ rfl]
  have h1 : 4 ≤ 6 + data.length ∧ 6 + data.length ≤ data.length + 1 + 1 + 1 + 1 + 1 + 1 + 1 := by
    omega
  have h2 : 6 + data.length < data.length + 1 + 1 + 1 + 1 + 1 + 1 + 1 := by omega
  rw [if_pos h1, Option.some_bind, if_pos h2]

theorem frame_of_bounds (cmd : Nat) (data : List Nat) (hcmd : cmd < 65536)
    (hlen : data.length + 3 ≤ 65535) :
    frame cmd data = 0xAA :: 0xDD :: (data.length + 3) / 256 :: (data.length + 3) % 256
      :: cmd / 256 :: cmd % 256 :: (data ++ [xorChecksum (cmd / 256 :: cmd % 256 :: data)]) := by
  have h1 : (2 + data.length + 1) % 65536 = data.length + 3 := by omega
  have h2 : (data.length + 3) / 256 % 256 = (data.length + 3) / 256 := by omega
  have h3 : cmd % 65536 = cmd := by omega
  have h4 : cmd / 256 % 256 = cmd / 256 := by omega
  simp [frame, covered, h1, h2, h3, h4]

/-- C1: for a 16-bit command and data that fits the length field, `newRequest`
returns exactly prefix `AA DD`, the big-endian length `len(data)+3`, the
big-endian command, the data, and the exclusive-or of the command bytes and the
data bytes; it has `len(data)+7` bytes and its length field is the number of
bytes after the length field. -/
theorem newRequest_layout (cmd : Nat) (data : List Nat) (hcmd : cmd < 65536)
    (hlen : data.length + 3 ≤ 65535) :
    ∃ req, newRequest cmd data = some req ∧
      req = [0xAA, 0xDD] ++ [(data.length + 3) / 256, (data.length + 3) % 256]
        ++ [cmd / 256, cmd % 256] ++ data
        ++ [xorChecksum ([cmd / 256, cmd % 256] ++ data)] ∧
      req.length = data.length + 7 ∧
      Uint16 (req.drop 2) = some (req.drop 4).length := by
  refine ⟨frame cmd data, newRequest_eq_frame cmd data, ?_, ?_, ?_⟩
  · rw [frame_of_bounds cmd data hcmd hlen]
    simp
  · rw [frame_of_bounds cmd data hcmd hlen]
    simp
  · rw [frame_of_bounds cmd data hcmd hlen]
    simp only [List.drop_succ_cons, List.drop_zero, Uint16, List.length_cons, List.length_append,
      List.length_singleton, List.length_nil, Option.some.injEq]
    omega

/-- C1 at the beep request for 127 units. -/
theorem newRequest_layout_witness :
    (0x0103 < 65536 ∧ [0x7F].length + 3 ≤ 65535) ∧
    ∃ req, newRequest 0x0103 [0x7F] = some req ∧
      req = [0xAA, 0xDD] ++ [([0x7F].length + 3) / 256, ([0x7F].length + 3) % 256]
        ++ [0x0103 / 256, 0x0103 % 256] ++ [0x7F]
        ++ [xorChecksum ([0x0103 / 256, 0x0103 % 256] ++ [0x7F])] ∧
      req.length = [0x7F].length + 7 ∧
      Uint16 (req.drop 2) = some (req.drop 4).length :=
  ⟨⟨by decide, by decide⟩, newRequest_layout 0x0103 [0x7F] (by decide) (by decide)⟩

/-! ## The decoder -/

theorem index_last_append (hd pl : List Nat) (h : pl ≠ []) :
    index (hd ++ pl) ((hd ++ pl).length - 1) = some (pl.getLast h) := by
  obtain ⟨body, c, rfl⟩ : ∃ body c, pl = body ++ [c] :=
    ⟨pl.dropLast, pl.getLast h, (List.dropLast_append_getLast h).symm⟩
  simp only [index, ← List.append_assoc, List.length_append, List.length_singleton,
    Nat.add_sub_cancel, List.getLast_append_singleton]
  rw [← List.length_append, List.getElem?_append_right (Nat.le_refl _)]
  simp

theorem slice_four_last (a b c d : Nat) (pl : List Nat) (h : pl ≠ []) :
    slice (a :: b :: c :: d :: pl) 4 ((a :: b :: c :: d :: pl).length - 1)
      = some pl.dropLast := by
  obtain ⟨body, x, rfl⟩ : ∃ body x, pl = body ++ [x] :=
    ⟨pl.dropLast, pl.getLast h, (List.dropLast_append_getLast h).symm⟩
  have h1 : (a :: b :: c :: d :: (body ++ [x])).length - 1 = body.length + 1 + 1 + 1 + 1 := by
    simp
  rw [h1]
  simp [slice]

theorem rx_short (r : List Nat) (h : r.length < 4) :
    rx r = some ((none, some (RxError.headerRead
      (if r.length = 0 then IoError.EOF else IoError.ErrUnexpectedEOF))), []) := by
  have h4 : ¬ 4 ≤ r.length := by omega
  by_cases h0 : r.length = 0 <;> simp [rx, ReadAtLeast, h4, h0]

theorem rx_cons (a b c d : Nat) (rest : List Nat) :
    rx (a :: b :: c :: d :: rest) =
      if a * 256 + b ≠ msgPrefix then some ((none, some RxError.badHeader), rest)
      else if c * 256 + d < 4 then some ((none, some RxError.invalidLength), rest)
      else if rest.length < c * 256 + d then
        some ((none, some (RxError.payloadRead
          (if rest.length = 0 then IoError.EOF else IoError.ErrUnexpectedEOF))), [])
      else if (rest.take (c * 256 + d)).getLastD 0
          ≠ xorChecksum (rest.take (c * 256 + d)).dropLast then
        some ((none, some RxError.badChecksum), rest.drop (c * 256 + d))
      else some ((some (a :: b :: c :: d :: rest.take (c * 256 + d)), none),
        rest.drop (c * 256 + d)) := by
  have h4 : 4 ≤ (a :: b :: c :: d :: rest).length := by simp
  have hpre : rx (a :: b :: c :: d :: rest) =
      (if a * 256 + b ≠ msgPrefix then some ((none, some RxError.badHeader), rest)
        else if c * 256 + d < 4 then some ((none, some RxError.invalidLength), rest)
        else
          match ReadAtLeast rest (c * 256 + d) with
          | (_, some err, r) => some ((none, some (RxError.payloadRead err)), r)
          | (payload, none, r) => do
            let buf := a :: b :: c :: d :: payload
            let last ← index buf (buf.length - 1)
            let covered ← slice buf 4 (buf.length - 1)
            if last ≠ xorChecksum covered then
              return ((none, some RxError.badChecksum), r)
            return ((some buf, none), r)) := by
    simp only [rx, ReadAtLeast, List.length_replicate, if_pos h4]
    simp only [List.take_succ_cons, List.take_zero, List.drop_succ_cons, List.drop_zero, Uint16,
      slice, List.length_cons, List.length_nil]
    simp only [Option.bind_eq_bind, Option.some_bind, Option.pure_def]
    have ht : ∀ n, List.take (0 + 1 + 1 + 1 + 1) (a :: b :: c :: d :: List.replicate n 0)
        = [a, b, c, d] := fun _ => rfl
    have h2 : 2 ≤ 0 + 1 + 1 + 1 + 1 ∧ 0 + 1 + 1 + 1 + 1 ≤ 0 + 1 + 1 + 1 + 1 := by omega
    simp only [if_pos h2, Option.some_bind, List.cons_append, List.nil_append, ht,
      List.length_cons]
  rw [hpre]
  generalize c * 256 + d = L
  by_cases hp : a * 256 + b ≠ msgPrefix
  · simp only [if_pos hp]
  by_cases hl : L < 4
  · simp only [if_neg hp, if_pos hl]
  simp only [if_neg hp, if_neg hl]
  by_cases hs : rest.length < L
  · have hs2 : ¬ L ≤ rest.length := by omega
    by_cases h0 : rest.length = 0
    · simp only [ReadAtLeast, if_neg hs2, if_pos hs, if_pos h0]
    · simp only [ReadAtLeast, if_neg hs2, if_pos hs, if_neg h0]
  have hs2 : L ≤ rest.length := by omega
  have hne : rest.take L ≠ [] := by
    intro h
    have := congrArg List.length h
    rw [List.length_take, List.length_nil] at this
    omega
  have hidx := index_last_append [a, b, c, d] _ hne
  have hsl := slice_four_last a b c d _ hne
  simp only [List.cons_append, List.nil_append] at hidx
  simp only [ReadAtLeast, if_pos hs2, if_neg hs, hidx, hsl, Option.bind_eq_bind, Option.some_bind,
    List.getLastD_eq_getLast?, List.getLast?_eq_getLast _ hne, Option.getD_some]
  split_ifs <;> rfl

/-- What it takes for `rx` to return a frame: the shape of the stream, of the
frame and of the reader afterwards. -/
theorem rx_accept (r resp rest : List Nat) (h : rx r = some ((some resp, none), rest)) :
    ∃ a b c d rest0, r = a :: b :: c :: d :: rest0 ∧ a * 256 + b = msgPrefix ∧
      4 ≤ c * 256 + d ∧ c * 256 + d ≤ rest0.length ∧
      (rest0.take (c * 256 + d)).getLastD 0
        = xorChecksum (rest0.take (c * 256 + d)).dropLast ∧
      resp = a :: b :: c :: d :: rest0.take (c * 256 + d) ∧
      rest = rest0.drop (c * 256 + d) := by
  by_cases hlen : r.length < 4
  · rw [rx_short r hlen] at h
    simp at h
  obtain ⟨a, b, c, d, rest0, rfl⟩ : ∃ a b c d rest0, r = a :: b :: c :: d :: rest0 := by
    match r, hlen with
    | a :: b :: c :: d :: rest0, _ => exact ⟨a, b, c, d, rest0, rfl⟩
    | [], h | [_], h | [_, _], h | [_, _, _], h => simp at h
  refine ⟨a, b, c, d, rest0, rfl, ?_⟩
  rw [rx_cons] at h
  by_cases h1 : a * 256 + b ≠ msgPrefix
  · simp [if_pos h1] at h
  by_cases h2 : c * 256 + d < 4
  · simp [if_neg h1, if_pos h2] at h
  by_cases h3 : rest0.length < c * 256 + d
  · simp [if_neg h1, if_neg h2, if_pos h3] at h
  by_cases h4 : (rest0.take (c * 256 + d)).getLastD 0
      ≠ xorChecksum (rest0.take (c * 256 + d)).dropLast
  · rw [if_neg h1, if_neg h2, if_neg h3, if_pos h4] at h
    simp at h
  rw [if_neg h1, if_neg h2, if_neg h3, if_neg h4] at h
  simp only [Option.some.injEq, Prod.mk.injEq, and_true] at h
  exact ⟨not_not.mp h1, by omega, by omega, not_not.mp h4, h.1.symm, h.2.symm⟩

/-- The decoder never panics. -/
theorem rx_isSome (r : List Nat) : ∃ res, rx r = some res := by
  by_cases hlen : r.length < 4
  · exact ⟨_, rx_short r hlen⟩
  obtain ⟨a, b, c, d, rest0, rfl⟩ : ∃ a b c d rest0, r = a :: b :: c :: d :: rest0 := by
    match r, hlen with
    | a :: b :: c :: d :: rest0, _ => exact ⟨a, b, c, d, rest0, rfl⟩
    | [], h | [_], h | [_, _], h | [_, _, _], h => simp at h
  rw [rx_cons]
  split_ifs <;> exact ⟨_, rfl⟩

/-- An accepted frame has at least eight bytes. -/
theorem rx_accept_length (r resp rest : List Nat) (h : rx r = some ((some resp, none), rest)) :
    8 ≤ resp.length := by
  obtain ⟨a, b, c, d, rest0, -, -, h4, hle, -, rfl, -⟩ := rx_accept r resp rest h
  simp only [List.length_cons, List.length_take]
  omega

/-! ## The device session -/

theorem RawCommand_writeErr (d : Port) (cmd : Nat) (data : List Nat) (err : String)
    (hw : d.writeErr = some err) :
    RawCommand d cmd data = some ((0, none, some (DeviceError.sending err)),
      { d with writes := d.writes ++ [frame cmd data] }) := by
  simp [RawCommand, newRequest_eq_frame, hw]

theorem RawCommand_rxErr (d : Port) (cmd : Nat) (data : List Nat) (buf : Option (List Nat))
    (err : RxError) (r : List Nat) (hw : d.writeErr = none)
    (hrx : rx d.input = some ((buf, some err), r)) :
    RawCommand d cmd data = some ((0, none, some (DeviceError.reading err)),
      { d with writes := d.writes ++ [frame cmd data], input := r }) := by
  simp [RawCommand, newRequest_eq_frame, hw, hrx]

theorem RawCommand_ok (d : Port) (cmd : Nat) (data resp r : List Nat) (hw : d.writeErr = none)
    (hrx : rx d.input = some ((some resp, none), r)) :
    ∃ status, index resp 6 = some status ∧
      slice resp 7 (resp.length - 1) = some ((resp.take (resp.length - 1)).drop 7) ∧
      RawCommand d cmd data = some ((status, some ((resp.take (resp.length - 1)).drop 7), none),
        { d with writes := d.writes ++ [frame cmd data], input := r }) := by
  have h8 := rx_accept_length _ _ _ hrx
  have h6 : 6 < resp.length := by omega
  have hidx : index resp 6 = some (resp.get ⟨6, h6⟩) := by
    simp [index, List.getElem?_eq_getElem h6]
  have hsl : slice resp 7 (resp.length - 1) = some ((resp.take (resp.length - 1)).drop 7) := by
    have : 7 ≤ resp.length - 1 ∧ resp.length - 1 ≤ resp.length := by omega
    simp only [slice, if_pos this]
  refine ⟨_, hidx, hsl, ?_⟩
  simp [RawCommand, newRequest_eq_frame, hw, hrx, hidx, hsl]

/-- `RawCommand` never panics, and it calls `Write` once, with the request frame. -/
theorem RawCommand_total (d : Port) (cmd : Nat) (data : List Nat) :
    ∃ res d1, RawCommand d cmd data = some (res, d1) ∧
      d1.writes = d.writes ++ [frame cmd data] := by
  cases hw : d.writeErr with
  | some err => exact ⟨_, _, RawCommand_writeErr d cmd data err hw, rfl⟩
  | none =>
    obtain ⟨⟨⟨buf, err⟩, r⟩, hrx⟩ := rx_isSome d.input
    cases err with
    | some e => exact ⟨_, _, RawCommand_rxErr d cmd data buf e r hw hrx, rfl⟩
    | none =>
      cases buf with
      | some resp =>
        obtain ⟨status, -, -, h⟩ := RawCommand_ok d cmd data resp r hw hrx
        exact ⟨_, _, h, rfl⟩
      | none =>
        exfalso
        by_cases hlen : d.input.length < 4
        · rw [rx_short _ hlen] at hrx
          simp at hrx
        obtain ⟨a, b, c, e, rest0, hr⟩ : ∃ a b c e rest0, d.input = a :: b :: c :: e :: rest0 := by
          match d.input, hlen with
          | a :: b :: c :: e :: rest0, _ => exact ⟨a, b, c, e, rest0, rfl⟩
          | [], h | [_], h | [_, _], h | [_, _, _], h => simp at h
        rw [hr, rx_cons] at hrx
        split_ifs at hrx <;> simp at hrx

/-! ## Round trip -/

/-- The decoder accepts an encoded frame whose data is not empty and whose length
fits the length field, and leaves nothing unread. -/
theorem rx_frame_cons (cmd s : Nat) (a : List Nat) (hcmd : cmd < 65536)
    (hlen : a.length + 4 ≤ 65535) :
    rx (frame cmd (s :: a)) = some ((some (frame cmd (s :: a)), none), []) := by
  have hl : (s :: a).length + 3 ≤ 65535 := by simp only [List.length_cons]; omega
  rw [frame_of_bounds cmd (s :: a) hcmd hl, rx_cons]
  simp only [List.length_cons]
  have hL : (a.length + 1 + 3) / 256 * 256 + (a.length + 1 + 3) % 256 = a.length + 4 := by omega
  have hrl : (cmd / 256 :: cmd % 256 :: (s :: a
      ++ [xorChecksum (cmd / 256 :: cmd % 256 :: s :: a)])).length = a.length + 4 := by
    simp
  have htake : ∀ l : List Nat, l.length = a.length + 4 → l.take (a.length + 4) = l := by
    intro l h
    rw [← h, List.take_length]
  have hdrop : ∀ l : List Nat, l.length = a.length + 4 → l.drop (a.length + 4) = [] := by
    intro l h
    rw [← h, List.drop_length]
  have hlast : (cmd / 256 :: cmd % 256 :: (s :: a
      ++ [xorChecksum (cmd / 256 :: cmd % 256 :: s :: a)])).getLastD 0
      = xorChecksum (cmd / 256 :: cmd % 256 :: s :: a) := by
    rw [show cmd / 256 :: cmd % 256 :: (s :: a
      ++ [xorChecksum (cmd / 256 :: cmd % 256 :: s :: a)])
      = (cmd / 256 :: cmd % 256 :: s :: a)
        ++ [xorChecksum (cmd / 256 :: cmd % 256 :: s :: a)] from rfl, List.getLastD_concat]
  have hdl : (cmd / 256 :: cmd % 256 :: (s :: a
      ++ [xorChecksum (cmd / 256 :: cmd % 256 :: s :: a)])).dropLast
      = cmd / 256 :: cmd % 256 :: s :: a := by
    rw [show cmd / 256 :: cmd % 256 :: (s :: a
      ++ [xorChecksum (cmd / 256 :: cmd % 256 :: s :: a)])
      = (cmd / 256 :: cmd % 256 :: s :: a)
        ++ [xorChecksum (cmd / 256 :: cmd % 256 :: s :: a)] from rfl, List.dropLast_concat]
  rw [hL, htake _ hrl, hdrop _ hrl, hlast, hdl]
  have hp : ¬ (170 * 256 + 221 ≠ msgPrefix) := by decide
  have h4 : ¬ (a.length + 4 < 4) := by omega
  have hs : ¬ ((s :: a ++ [xorChecksum (cmd / 256 :: cmd % 256 :: s :: a)]).length + 1 + 1
      < a.length + 4) := by
    simp
  rw [if_neg hp, if_neg h4, if_neg hs, if_neg (not_not.mpr rfl)]

theorem slice_seven_last (a b c d e f g x : Nat) (l : List Nat) :
    slice (a :: b :: c :: d :: e :: f :: g :: (l ++ [x])) 7
      ((a :: b :: c :: d :: e :: f :: g :: (l ++ [x])).length - 1) = some l := by
  have h1 : (a :: b :: c :: d :: e :: f :: g :: (l ++ [x])).length - 1
      = l.length + 1 + 1 + 1 + 1 + 1 + 1 + 1 := by
    simp
  rw [h1]
  simp [slice]

/-- C2: round trip. For a 16-bit command, a status byte and an answer that fits
the length field, `rx` accepts the stream `newRequest(cmd, [s] ++ a)` and returns
it whole; bytes 5-6 of the frame decode to `cmd`, `resp[6]` is `s`,
`resp[7 : len-1]` is `a`, and `RawCommand` reading that stream returns `(s, a, nil)`. -/
theorem rx_newRequest_roundtrip (cmd s : Nat) (a : List Nat) (hcmd : cmd < 65536)
    (hlen : a.length + 4 ≤ 65535) :
    ∃ req, newRequest cmd (s :: a) = some req ∧
      rx req = some ((some req, none), []) ∧
      Uint16 (req.drop 4) = some cmd ∧
      index req 6 = some s ∧
      slice req 7 (req.length - 1) = some a ∧
      ∀ (d : Port) (cmd1 : Nat) (data1 : List Nat), d.writeErr = none → d.input = req →
        ∃ d1, RawCommand d cmd1 data1 = some ((s, some a, none), d1) := by
  have hl : (s :: a).length + 3 ≤ 65535 := by simp only [List.length_cons]; omega
  have hrx := rx_frame_cons cmd s a hcmd hlen
  have hidx : index (frame cmd (s :: a)) 6 = some s := by
    rw [frame_of_bounds cmd (s :: a) hcmd hl]
    simp [index]
  have hsl : slice (frame cmd (s :: a)) 7 ((frame cmd (s :: a)).length - 1) = some a := by
    rw [frame_of_bounds cmd (s :: a) hcmd hl]
    exact slice_seven_last _ _ _ _ _ _ _ _ _
  refine ⟨frame cmd (s :: a), newRequest_eq_frame cmd (s :: a), hrx, ?_, hidx, hsl, ?_⟩
  · rw [frame_of_bounds cmd (s :: a) hcmd hl]
    simp only [List.drop_succ_cons, List.drop_zero, Uint16, Option.some.injEq]
    omega
  · intro d cmd1 data1 hw hin
    have hrx1 : rx d.input = some ((some (frame cmd (s :: a)), none), []) := by
      rw [hin]; exact hrx
    obtain ⟨status, h6, h7, hraw⟩ := RawCommand_ok d cmd1 data1 _ [] hw hrx1
    rw [hidx] at h6
    rw [hsl] at h7
    simp only [Option.some.injEq] at h6 h7
    rw [← h6, ← h7] at hraw
    exact ⟨_, hraw⟩

/-- C2 at command `0x010C`, status `0x00` and the answer `07 08`. -/
theorem rx_newRequest_roundtrip_witness :
    (0x010C < 65536 ∧ [0x07, 0x08].length + 4 ≤ 65535) ∧
    ∃ req, newRequest 0x010C (0x00 :: [0x07, 0x08]) = some req ∧
      rx req = some ((some req, none), []) ∧
      Uint16 (req.drop 4) = some 0x010C ∧
      index req 6 = some 0x00 ∧
      slice req 7 (req.length - 1) = some [0x07, 0x08] ∧
      ∀ (d : Port) (cmd1 : Nat) (data1 : List Nat), d.writeErr = none → d.input = req →
        ∃ d1, RawCommand d cmd1 data1 = some ((0x00, some [0x07, 0x08], none), d1) :=
  ⟨⟨by decide, by decide⟩, rx_newRequest_roundtrip 0x010C 0x00 [0x07, 0x08] (by decide) (by decide)⟩

/-! ## Checksum algebra -/

theorem foldl_xor_init (l : List Nat) (c : Nat) :
    l.foldl (fun csum b => csum ^^^ b) c = c ^^^ xorChecksum l := by
  induction l generalizing c with
  | nil => simp [xorChecksum]
  | cons a l ih =>
    simp only [xorChecksum, List.foldl_cons] at ih ⊢
    rw [ih (c ^^^ a), ih (0 ^^^ a), Nat.zero_xor, Nat.xor_assoc]

theorem xorChecksum_cons (a : Nat) (l : List Nat) :
    xorChecksum (a :: l) = a ^^^ xorChecksum l := by
  simp only [xorChecksum, List.foldl_cons, Nat.zero_xor]
  exact foldl_xor_init l a

theorem xorChecksum_set (l : List Nat) (i m : Nat) (h : i < l.length) :
    xorChecksum (l.set i (l.getD i 0 ^^^ m)) = xorChecksum l ^^^ m := by
  induction l generalizing i with
  | nil => simp at h
  | cons a l ih =>
    cases i with
    | zero =>
      simp only [List.set_cons_zero, List.getD_cons_zero, xorChecksum_cons]
      rw [Nat.xor_assoc, Nat.xor_comm m, Nat.xor_assoc]
    | succ i =>
      have hi : i < l.length := by simpa using h
      simp only [List.set_cons_succ, List.getD_cons_succ, xorChecksum_cons, ih i hi,
        Nat.xor_assoc]

theorem xor_ne_self (a m : Nat) (hm : m ≠ 0) : a ^^^ m ≠ a := by
  intro h
  have := Nat.xor_cancel_left a m
  rw [h, Nat.xor_self] at this
  exact hm this.symm

/-! ## The decoder on a stream split into its parts -/

theorem rx_of_parts (a b c d x : Nat) (body q : List Nat) (hp : a * 256 + b = msgPrefix)
    (hL : c * 256 + d = body.length + 1) (h4 : 4 ≤ body.length + 1) :
    rx (a :: b :: c :: d :: (body ++ x :: q)) =
      if x ≠ xorChecksum body then some ((none, some RxError.badChecksum), q)
      else some ((some (a :: b :: c :: d :: (body ++ [x])), none), q) := by
  have hsplit : body ++ x :: q = (body ++ [x]) ++ q := by simp
  have hlen : (body ++ [x]).length = body.length + 1 := by simp
  rw [rx_cons, hL, hsplit, List.take_left' hlen, List.drop_left' hlen, List.getLastD_concat,
    List.dropLast_concat]
  have h1 : ¬ (a * 256 + b ≠ msgPrefix) := not_not.mpr hp
  have h2 : ¬ (body.length + 1 < 4) := by omega
  have h3 : ¬ ((body ++ [x] ++ q).length < body.length + 1) := by
    simp only [List.length_append, List.length_singleton]
    omega
  rw [if_neg h1, if_neg h2, if_neg h3]

theorem rx_accept_parts (r resp rest : List Nat) (h : rx r = some ((some resp, none), rest)) :
    ∃ a b c d x body, r = a :: b :: c :: d :: (body ++ x :: rest) ∧
      resp = a :: b :: c :: d :: (body ++ [x]) ∧ a * 256 + b = msgPrefix ∧
      c * 256 + d = body.length + 1 ∧ 4 ≤ body.length + 1 ∧ x = xorChecksum body := by
  obtain ⟨a, b, c, d, rest0, hr, hp, h4, hle, hck, hresp, hrest⟩ := rx_accept r resp rest h
  have hne : rest0.take (c * 256 + d) ≠ [] := by
    intro h
    have := congrArg List.length h
    rw [List.length_take, List.length_nil] at this
    omega
  obtain ⟨body, x, hbx⟩ : ∃ body x, rest0.take (c * 256 + d) = body ++ [x] :=
    ⟨_, _, (List.dropLast_append_getLast hne).symm⟩
  have hlen : body.length + 1 = c * 256 + d := by
    have := congrArg List.length hbx
    rw [List.length_take, List.length_append, List.length_singleton] at this
    omega
  rw [hbx, List.getLastD_concat, List.dropLast_concat] at hck
  refine ⟨a, b, c, d, x, body, ?_, ?_, hp, hlen.symm, by omega, hck⟩
  · have hsplit : body ++ x :: rest0.drop (c * 256 + d) = rest0 := by
      have := List.take_append_drop (c * 256 + d) rest0
      rw [hbx] at this
      simpa using this
    rw [hr, hrest, hsplit]
  · rw [hresp, hbx]

/-! ## Integrity -/

/-- C3: when `rx` accepts a stream and returns the frame `f`, flipping bit `k`
(any `k`, so each of the eight bits of a byte) of the byte at any index from 4 to
`len(f)-2` makes `rx` fail, with the checksum error "response have invalid
checksum" and with no other error. -/
theorem rx_bit_flip_checksum (r f rest : List Nat) (i k : Nat)
    (hrx : rx r = some ((some f, none), rest)) (hi : 4 ≤ i) (hi2 : i + 2 ≤ f.length) :
    rx (flipBit r i k) = some ((none, some RxError.badChecksum), rest) ∧
      RxError.badChecksum.Error = "response have invalid checksum" := by
  refine ⟨?_, rfl⟩
  obtain ⟨a, b, c, d, x, body, hr, hf, hp, hL, h4, hx⟩ := rx_accept_parts r f rest hrx
  obtain ⟨j, rfl⟩ : ∃ j, i = j + 4 := ⟨i - 4, by omega⟩
  have hj : j < body.length := by
    rw [hf] at hi2
    simp only [List.length_cons, List.length_append, List.length_nil] at hi2
    omega
  have hflip : flipBit r (j + 4) k
      = a :: b :: c :: d :: (body.set j (body.getD j 0 ^^^ 2 ^ k) ++ x :: rest) := by
    rw [hr]
    simp only [flipBit, List.set_cons_succ, List.getD_cons_succ,
      List.getD_append _ _ _ _ hj, List.set_append_left _ _ hj]
  have hlen : (body.set j (body.getD j 0 ^^^ 2 ^ k)).length = body.length := List.length_set _ _ _
  rw [hflip, rx_of_parts a b c d x _ rest hp (by rw [hlen]; exact hL) (by rw [hlen]; exact h4),
    xorChecksum_set body j _ hj, ← hx]
  have hne : x ≠ x ^^^ 2 ^ k :=
    fun h => xor_ne_self x (2 ^ k) (Nat.pos_iff_ne_zero.mp (Nat.two_pow_pos k)) h.symm
  rw [if_pos hne]

/-- C3 at the frame `AA DD 00 04 01 0C 01 0C`, flipping bit 0 of the status byte. -/
theorem rx_bit_flip_checksum_witness :
    (rx [0xAA, 0xDD, 0x00, 0x04, 0x01, 0x0C, 0x01, 0x0C]
        = some ((some [0xAA, 0xDD, 0x00, 0x04, 0x01, 0x0C, 0x01, 0x0C], none), [])
      ∧ 4 ≤ 6 ∧ 6 + 2 ≤ [0xAA, 0xDD, 0x00, 0x04, 0x01, 0x0C, 0x01, 0x0C].length) ∧
    (rx (flipBit [0xAA, 0xDD, 0x00, 0x04, 0x01, 0x0C, 0x01, 0x0C] 6 0)
        = some ((none, some RxError.badChecksum), []) ∧
      RxError.badChecksum.Error = "response have invalid checksum") :=
  ⟨⟨by decide, by decide, by decide⟩,
    rx_bit_flip_checksum [0xAA, 0xDD, 0x00, 0x04, 0x01, 0x0C, 0x01, 0x0C]
      [0xAA, 0xDD, 0x00, 0x04, 0x01, 0x0C, 0x01, 0x0C] [] 6 0 (by decide) (by decide)
      (by decide)⟩

/-! ## Framing -/

/-- C4: on every byte stream `rx` returns an error and no frame, without a panic,
(1) with the header read error when fewer than 4 bytes arrive, (2) with "bad
response header" when 4 bytes arrive and the first two are not `AA DD`, (3) with
"invalid payload length value" when the prefix is `AA DD` and the big-endian
length in bytes 3-4 is below 4; the error is thus neither the checksum error nor
the payload read error. -/
theorem rx_framing_errors (r : List Nat) (hb : ∀ x ∈ r, x < 256) :
    (r.length < 4 → rx r = some ((none, some (RxError.headerRead
        (if r.length = 0 then IoError.EOF else IoError.ErrUnexpectedEOF))), [])) ∧
    (∀ a b c d rest, r = a :: b :: c :: d :: rest → ¬ (a = 0xAA ∧ b = 0xDD) →
        rx r = some ((none, some RxError.badHeader), rest)) ∧
    (∀ c d rest, r = 0xAA :: 0xDD :: c :: d :: rest → c * 256 + d < 4 →
        rx r = some ((none, some RxError.invalidLength), rest)) := by
  refine ⟨rx_short r, ?_, ?_⟩
  · intro a b c d rest hr hne
    have ha : a < 256 := hb a (by simp [hr])
    have hb2 : b < 256 := hb b (by simp [hr])
    have hp : a * 256 + b ≠ msgPrefix := by
      intro h
      apply hne
      simp only [msgPrefix] at h
      omega
    rw [hr, rx_cons, if_pos hp]
  · intro c d rest hr hlt
    have hp : ¬ (0xAA * 256 + 0xDD ≠ msgPrefix) := by decide
    rw [hr, rx_cons, if_neg hp, if_pos hlt]

/-- C4 at a three-byte stream, a stream with prefix `AA DC`, and a frame that
declares length 3. -/
theorem rx_framing_errors_witness :
    rx [0xAA, 0xDD, 0x00]
      = some ((none, some (RxError.headerRead IoError.ErrUnexpectedEOF)), []) ∧
    rx [0xAA, 0xDC, 0x00, 0x04, 0x01, 0x0C, 0x01, 0x0C]
      = some ((none, some RxError.badHeader), [0x01, 0x0C, 0x01, 0x0C]) ∧
    rx [0xAA, 0xDD, 0x00, 0x03, 0x01, 0x02, 0x03]
      = some ((none, some RxError.invalidLength), [0x01, 0x02, 0x03]) :=
  ⟨(rx_framing_errors [0xAA, 0xDD, 0x00] (by decide)).1 (by decide),
    (rx_framing_errors [0xAA, 0xDC, 0x00, 0x04, 0x01, 0x0C, 0x01, 0x0C] (by decide)).2.1
      _ _ _ _ _ rfl (by decide),
    (rx_framing_errors [0xAA, 0xDD, 0x00, 0x03, 0x01, 0x02, 0x03] (by decide)).2.2
      _ _ _ rfl (by decide)⟩

/-! ## Field extraction -/

/-- C5: for every frame `resp` that `rx` accepts, `len(resp) >= 8`, `resp[6]` and
`resp[7 : len(resp)-1]` are in bounds, `RawCommand` returns exactly these as the
status and the answer, the answer has (length field - 4) bytes, index 6 lies
before the index of the checksum byte, and a declared length of 4 gives an empty
answer. -/
theorem RawCommand_extraction (r resp rest : List Nat)
    (h : rx r = some ((some resp, none), rest)) :
    8 ≤ resp.length ∧
    ∃ L status answer, Uint16 (resp.drop 2) = some L ∧
      index resp 6 = some status ∧
      slice resp 7 (resp.length - 1) = some answer ∧
      answer = (resp.take (resp.length - 1)).drop 7 ∧
      answer.length = L - 4 ∧
      6 < resp.length - 1 ∧
      (L = 4 → answer = []) ∧
      ∀ (d : Port) (cmd : Nat) (data : List Nat), d.writeErr = none → d.input = r →
        ∃ d1, RawCommand d cmd data = some ((status, some answer, none), d1) := by
  have h8 := rx_accept_length r resp rest h
  obtain ⟨a, b, c, d, x, body, hr, hf, hp, hL, h4, hx⟩ := rx_accept_parts r resp rest h
  obtain ⟨e, f, g, ans, rfl⟩ : ∃ e f g ans, body = e :: f :: g :: ans := by
    match body, h4 with
    | e :: f :: g :: ans, _ => exact ⟨e, f, g, ans, rfl⟩
    | [], h | [_], h | [_, _], h => simp at h
  have hidx : index resp 6 = some g := by
    rw [hf]; simp [index]
  have hsl : slice resp 7 (resp.length - 1) = some ans := by
    rw [hf]; exact slice_seven_last _ _ _ _ _ _ _ _ _
  have hans : ans = (resp.take (resp.length - 1)).drop 7 := by
    have h7 : 7 ≤ resp.length - 1 ∧ resp.length - 1 ≤ resp.length := by omega
    have := hsl
    simp only [slice, if_pos h7, Option.some.injEq] at this
    exact this.symm
  have hlen : ans.length = c * 256 + d - 4 := by
    simp only [List.length_cons] at hL
    omega
  refine ⟨h8, c * 256 + d, g, ans, ?_, hidx, hsl, hans, hlen, by omega, ?_, ?_⟩
  · rw [hf]; rfl
  · intro h4
    rw [h4] at hlen
    exact List.length_eq_zero.mp hlen
  · intro p cmd data hw hin
    rw [← hin] at h
    obtain ⟨status, h6, h7, hraw⟩ := RawCommand_ok p cmd data resp rest hw h
    rw [hidx] at h6
    simp only [Option.some.injEq] at h6
    rw [← h6, ← hans] at hraw
    exact ⟨_, hraw⟩

/-- C5 at the frame `AA DD 00 04 01 0C 01 0C`, of declared length 4. -/
theorem RawCommand_extraction_witness :
    rx [0xAA, 0xDD, 0x00, 0x04, 0x01, 0x0C, 0x01, 0x0C]
      = some ((some [0xAA, 0xDD, 0x00, 0x04, 0x01, 0x0C, 0x01, 0x0C], none), []) ∧
    (8 ≤ [0xAA, 0xDD, 0x00, 0x04, 0x01, 0x0C, 0x01, 0x0C].length ∧
    ∃ L status answer,
      Uint16 (List.drop 2 [0xAA, 0xDD, 0x00, 0x04, 0x01, 0x0C, 0x01, 0x0C]) = some L ∧
      index [0xAA, 0xDD, 0x00, 0x04, 0x01, 0x0C, 0x01, 0x0C] 6 = some status ∧
      slice [0xAA, 0xDD, 0x00, 0x04, 0x01, 0x0C, 0x01, 0x0C] 7
        ([0xAA, 0xDD, 0x00, 0x04, 0x01, 0x0C, 0x01, 0x0C].length - 1) = some answer ∧
      answer = List.drop 7 (List.take
        ([0xAA, 0xDD, 0x00, 0x04, 0x01, 0x0C, 0x01, 0x0C].length - 1)
        [0xAA, 0xDD, 0x00, 0x04, 0x01, 0x0C, 0x01, 0x0C]) ∧
      answer.length = L - 4 ∧
      6 < [0xAA, 0xDD, 0x00, 0x04, 0x01, 0x0C, 0x01, 0x0C].length - 1 ∧
      (L = 4 → answer = []) ∧
      ∀ (d : Port) (cmd : Nat) (data : List Nat), d.writeErr = none →
        d.input = [0xAA, 0xDD, 0x00, 0x04, 0x01, 0x0C, 0x01, 0x0C] →
        ∃ d1, RawCommand d cmd data = some ((status, some answer, none), d1)) :=
  ⟨by decide, RawCommand_extraction [0xAA, 0xDD, 0x00, 0x04, 0x01, 0x0C, 0x01, 0x0C]
    [0xAA, 0xDD, 0x00, 0x04, 0x01, 0x0C, 0x01, 0x0C] [] (by decide)⟩

/-! ## Tag read -/

/-- C6: when `RawCommand(CommandRead, nil)` succeeds with status `s` and answer
`a`, `ReadTag` returns `(a, nil)` for `s = 0x00`, whatever the length of `a`;
`(nil, ErrNoTag)` for `s = 0x01`; and for every other `s` no tag bytes and the
unexpected-status error, which is not `ErrNoTag`. -/
theorem ReadTag_status (d d1 : Port) (s : Nat) (a : List Nat)
    (h : RawCommand d CommandRead [] = some ((s, some a, none), d1)) :
    (s = 0x00 → ReadTag d = some ((some a, none), d1)) ∧
    (s = 0x01 → ReadTag d = some ((none, some DeviceError.ErrNoTag), d1)) ∧
    (s ≠ 0x00 → s ≠ 0x01 →
      ReadTag d = some ((none, some (DeviceError.unexpectedStatusAnswer s (some a))), d1) ∧
      DeviceError.unexpectedStatusAnswer s (some a) ≠ DeviceError.ErrNoTag) := by
  refine ⟨?_, ?_, ?_⟩
  · intro hs
    simp [ReadTag, h, hs, StatusOK]
  · intro hs
    simp [ReadTag, h, hs, StatusOK, StatusNoTag]
  · intro h0 h1
    refine ⟨?_, by simp⟩
    simp [ReadTag, h, h0, h1, StatusOK, StatusNoTag]

/-- C6 at three responses to the read command: status `00` with the answer
`07 08`, status `01`, and status `02`, both with an empty answer. -/
theorem ReadTag_status_witness :
    ReadTag ⟨none, [0xAA, 0xDD, 0x00, 0x06, 0x01, 0x0C, 0x00, 0x07, 0x08, 0x02], []⟩
      = some ((some [0x07, 0x08], none),
          ⟨none, [], [[0xAA, 0xDD, 0x00, 0x03, 0x01, 0x0C, 0x0D]]⟩) ∧
    ReadTag ⟨none, [0xAA, 0xDD, 0x00, 0x04, 0x01, 0x0C, 0x01, 0x0C], []⟩
      = some ((none, some DeviceError.ErrNoTag),
          ⟨none, [], [[0xAA, 0xDD, 0x00, 0x03, 0x01, 0x0C, 0x0D]]⟩) ∧
    ReadTag ⟨none, [0xAA, 0xDD, 0x00, 0x04, 0x01, 0x0C, 0x02, 0x0F], []⟩
      = some ((none, some (DeviceError.unexpectedStatusAnswer 0x02 (some []))),
          ⟨none, [], [[0xAA, 0xDD, 0x00, 0x03, 0x01, 0x0C, 0x0D]]⟩) :=
  ⟨(ReadTag_status ⟨none, [0xAA, 0xDD, 0x00, 0x06, 0x01, 0x0C, 0x00, 0x07, 0x08, 0x02], []⟩
      ⟨none, [], [[0xAA, 0xDD, 0x00, 0x03, 0x01, 0x0C, 0x0D]]⟩ 0x00 [0x07, 0x08]
      (by decide)).1 rfl,
    (ReadTag_status ⟨none, [0xAA, 0xDD, 0x00, 0x04, 0x01, 0x0C, 0x01, 0x0C], []⟩
      ⟨none, [], [[0xAA, 0xDD, 0x00, 0x03, 0x01, 0x0C, 0x0D]]⟩ 0x01 [] (by decide)).2.1 rfl,
    ((ReadTag_status ⟨none, [0xAA, 0xDD, 0x00, 0x04, 0x01, 0x0C, 0x02, 0x0F], []⟩
      ⟨none, [], [[0xAA, 0xDD, 0x00, 0x03, 0x01, 0x0C, 0x0D]]⟩ 0x02 [] (by decide)).2.2
      (by decide) (by decide)).1⟩

/-! ## Beep -/

theorem beepUnit_eq : beepUnit = 3921568 := by decide

/-- `Beep` sends the byte computed from its duration. -/
theorem Beep_sends (duration : Int) : BeepSends duration (beepData duration) := by
  intro p
  obtain ⟨⟨status, answer, err⟩, p1, hraw, hw⟩ := RawCommand_total p CommandBeep (beepData duration)
  refine ⟨if err ≠ none then err
      else if status ≠ StatusOK then some (DeviceError.unexpectedStatus status) else none,
    p1, frame CommandBeep (beepData duration), ?_, newRequest_eq_frame _ _, hw⟩
  simp only [Beep, hraw, Option.bind_eq_bind, Option.some_bind]
  split_ifs <;> rfl

theorem beepData_small (d : Int) (h1 : 1 ≤ d) (h2 : d ≤ beepUnit - 1) : beepData d = [1] := by
  rw [beepUnit_eq] at h2
  have hq : Int.tdiv d beepUnit = 0 := by
    rw [beepUnit_eq, Int.tdiv_eq_ediv (by omega) (by omega)]
    exact Int.ediv_eq_zero_of_lt (by omega) (by omega)
  have hd : d ≠ 0 := by omega
  simp [beepData, beepUnits, hq, hd, toByte]

/-- C7: the data byte `Beep` sends is 0 for the duration 0, 1 for every duration
from 1ns to one beep unit less 1ns, and 255 for 300 beep units, where the beep
unit is `time.Second / 255` = 3921568ns. -/
theorem Beep_unit_conversion :
    beepUnit = 3921568 ∧
    (beepData 0 = [0] ∧ BeepSends 0 [0]) ∧
    (∀ d : Int, 1 ≤ d → d ≤ beepUnit - 1 → beepData d = [1] ∧ BeepSends d [1]) ∧
    (beepData (300 * beepUnit) = [255] ∧ BeepSends (300 * beepUnit) [255]) := by
  have h0 : beepData 0 = [0] := by decide
  have h300 : beepData (300 * beepUnit) = [255] := by decide
  refine ⟨beepUnit_eq, ⟨h0, ?_⟩, ?_, ⟨h300, ?_⟩⟩
  · have := Beep_sends 0
    rwa [h0] at this
  · intro d h1 h2
    have hd := beepData_small d h1 h2
    have := Beep_sends d
    rw [hd] at this
    exact ⟨hd, this⟩
  · have := Beep_sends (300 * beepUnit)
    rwa [h300] at this

/-- C7 at one beep unit less 1ns. -/
theorem Beep_unit_conversion_witness :
    ((1 : Int) ≤ 3921567 ∧ (3921567 : Int) ≤ beepUnit - 1) ∧
    (beepData 3921567 = [1] ∧ BeepSends 3921567 [1]) :=
  ⟨⟨by decide, by decide⟩, Beep_unit_conversion.2.2.1 3921567 (by decide) (by decide)⟩

theorem specUnits_500ms_beepUnit : specUnits 500000000 (beepUnit : ℚ) = 128 := by
  have hr : round (((500000000 : Int) : ℚ) / ((beepUnit : Int) : ℚ)) = 128 := by
    rw [beepUnit_eq, round_eq, Int.floor_eq_iff]
    constructor <;> norm_num
  simp only [specUnits, hr]
  decide

theorem specUnits_500ms_exact : specUnits 500000000 (1000000000 / 255) = 128 := by
  have hr : round (((500000000 : Int) : ℚ) / (1000000000 / 255)) = 128 := by
    rw [round_eq, Int.floor_eq_iff]
    constructor <;> norm_num
  simp only [specUnits, hr]
  decide

/-- C8 fails at 500ms: the nearest unit count is 128, whether the unit is the
integer `beepUnit` or the exact 1s/255, and `Beep` sends 127. -/
theorem Beep_500ms_not_nearest :
    (0 : Int) ≤ 500000000 ∧
    1 ≤ round (((500000000 : Int) : ℚ) / ((beepUnit : Int) : ℚ)) ∧
    beepData 500000000 ≠ [(specUnits 500000000 (beepUnit : ℚ)).toNat] ∧
    beepData 500000000 ≠ [(specUnits 500000000 (1000000000 / 255)).toNat] := by
  have hd : beepData 500000000 = [127] := by decide
  refine ⟨by decide, ?_, ?_, ?_⟩
  · rw [beepUnit_eq, round_eq, Int.le_floor]
    norm_num
  · rw [hd, specUnits_500ms_beepUnit]
    decide
  · rw [hd, specUnits_500ms_exact]
    decide

theorem beepData_large (d : Int) (h : beepUnit ≤ d) :
    beepData d = [(min 255 (d / beepUnit)).toNat] := by
  rw [beepUnit_eq] at h
  have hq : Int.tdiv d 3921568 = d / 3921568 :=
    Int.tdiv_eq_ediv (by omega) (by omega)
  have h0 : ¬ (d ≠ 0 ∧ d / 3921568 = 0) := by omega
  simp only [beepData, beepUnits, hq, toByte, beepUnit_eq, if_neg h0]
  by_cases hc : d / 3921568 > 255
  · rw [if_pos hc, min_eq_left (by omega)]
    rfl
  · rw [if_neg hc, min_eq_right (by omega), Int.emod_eq_of_lt (by omega) (by omega)]

/-- C8 as amended: `Beep` truncates. For every positive duration, so for every
duration whose nearest unit count is at least 1, the data byte is
`min(255, max(1, floor(d / beepUnit)))`; for 500ms it is 127. -/
theorem Beep_truncates (d : Int) (h : 0 < d) :
    beepData d = [(min 255 (max 1 (d / beepUnit))).toNat] ∧
    BeepSends d [(min 255 (max 1 (d / beepUnit))).toNat] ∧
    beepData 500000000 = [127] := by
  have hdata : beepData d = [(min 255 (max 1 (d / beepUnit))).toNat] := by
    by_cases hs : d ≤ beepUnit - 1
    · rw [beepData_small d (by omega) hs]
      rw [beepUnit_eq] at hs ⊢
      have hq : d / 3921568 = 0 := Int.ediv_eq_zero_of_lt (by omega) (by omega)
      rw [hq]
      rfl
    · have hle : beepUnit ≤ d := by omega
      rw [beepData_large d hle]
      rw [beepUnit_eq] at hle ⊢
      rw [max_eq_right (by omega)]
  refine ⟨hdata, ?_, by decide⟩
  have := Beep_sends d
  rwa [hdata] at this

/-- C8 as amended, at 500ms. -/
theorem Beep_truncates_witness :
    (0 : Int) < 500000000 ∧
    (beepData 500000000 = [(min 255 (max 1 (500000000 / beepUnit))).toNat] ∧
    BeepSends 500000000 [(min 255 (max 1 (500000000 / beepUnit))).toNat] ∧
    beepData 500000000 = [127]) :=
  ⟨by decide, Beep_truncates 500000000 (by decide)⟩

/-- C9 fails at the nonzero duration of -256 beep units, a signed 64-bit value:
the quotient -256 passes both guards and `byte(-256)` is 0, so `Beep` sends the
"beep forever" value. -/
theorem Beep_negative_sends_zero :
    (-1003921408 : Int) ≠ 0 ∧ -(2 : Int) ^ 63 ≤ -1003921408 ∧
    (-1003921408 : Int) = -256 * beepUnit ∧
    beepUnits (-1003921408) = -256 ∧
    beepData (-1003921408) = [0] ∧ BeepSends (-1003921408) [0] := by
  have hd : beepData (-1003921408) = [0] := by decide
  refine ⟨by decide, by decide, by decide, by decide, hd, ?_⟩
  have := Beep_sends (-1003921408)
  rwa [hd] at this

/-- The part of C9 that holds: a positive duration sends a byte from 1 to 255. -/
theorem beepData_pos (d : Int) (h : 0 < d) : ∃ u, beepData d = [u] ∧ 1 ≤ u ∧ u ≤ 255 := by
  by_cases hs : d ≤ beepUnit - 1
  · exact ⟨1, beepData_small d (by omega) hs, by omega, by omega⟩
  · have hle : beepUnit ≤ d := by omega
    refine ⟨_, beepData_large d hle, ?_, ?_⟩
    · rw [beepUnit_eq] at hle ⊢
      omega
    · omega

/-- C10: on every port, `Beep` called with 500ms passes to `Write` exactly the
eight bytes `AA DD 00 04 01 03 7F 7D`, which is `newRequest(0x0103, [0x7F])`,
with checksum `0x01 ^ 0x03 ^ 0x7F = 0x7D`. -/
theorem Beep_500ms_frame :
    (∀ p : Port, ∃ res p1, Beep p 500000000 = some (res, p1) ∧
      p1.writes = p.writes ++ [[0xAA, 0xDD, 0x00, 0x04, 0x01, 0x03, 0x7F, 0x7D]]) ∧
    newRequest 0x0103 [0x7F] = some [0xAA, 0xDD, 0x00, 0x04, 0x01, 0x03, 0x7F, 0x7D] ∧
    CommandBeep = 0x0103 ∧ beepData 500000000 = [0x7F] ∧
    0x01 ^^^ 0x03 ^^^ 0x7F = 0x7D := by
  have hd : beepData 500000000 = [0x7F] := by decide
  have hreq : newRequest 0x0103 [0x7F]
      = some [0xAA, 0xDD, 0x00, 0x04, 0x01, 0x03, 0x7F, 0x7D] := by decide
  refine ⟨?_, hreq, rfl, hd, by decide⟩
  intro p
  obtain ⟨res, p1, req, hbeep, hnew, hw⟩ := Beep_sends 500000000 p
  rw [hd] at hnew
  have : req = [0xAA, 0xDD, 0x00, 0x04, 0x01, 0x03, 0x7F, 0x7D] := by
    have h2 : newRequest CommandBeep [0x7F] = newRequest 0x0103 [0x7F] := rfl
    rw [h2, hreq] at hnew
    exact (Option.some.inj hnew).symm
  rw [this] at hw
  exact ⟨res, p1, hbeep, hw⟩

/-! ## The "no tag" response -/

/-- C11: the response stream `AA DD 00 04 01 0C 01 0C`, whose checksum is
`0x01 ^ 0x0C ^ 0x01 = 0x0C`, is accepted by `rx`; on a port that delivers it
`RawCommand` returns status `0x01` with an empty answer and no error, and
`ReadTag` returns `ErrNoTag`, not a decoding or unexpected-status error. -/
theorem ReadTag_no_tag_response :
    0x01 ^^^ 0x0C ^^^ 0x01 = 0x0C ∧
    rx [0xAA, 0xDD, 0x00, 0x04, 0x01, 0x0C, 0x01, 0x0C]
      = some ((some [0xAA, 0xDD, 0x00, 0x04, 0x01, 0x0C, 0x01, 0x0C], none), []) ∧
    ∀ p : Port, p.writeErr = none →
      p.input = [0xAA, 0xDD, 0x00, 0x04, 0x01, 0x0C, 0x01, 0x0C] →
      (∀ (cmd : Nat) (data : List Nat), ∃ p1,
        RawCommand p cmd data = some ((0x01, some [], none), p1)) ∧
      ∃ p1, ReadTag p = some ((none, some DeviceError.ErrNoTag), p1) := by
  have hrx : rx [0xAA, 0xDD, 0x00, 0x04, 0x01, 0x0C, 0x01, 0x0C]
      = some ((some [0xAA, 0xDD, 0x00, 0x04, 0x01, 0x0C, 0x01, 0x0C], none), []) := by decide
  refine ⟨by decide, hrx, ?_⟩
  intro p hw hin
  have hraw : ∀ (cmd : Nat) (data : List Nat), ∃ p1,
      RawCommand p cmd data = some ((0x01, some [], none), p1) := by
    intro cmd data
    have hrx1 : rx p.input
        = some ((some [0xAA, 0xDD, 0x00, 0x04, 0x01, 0x0C, 0x01, 0x0C], none), []) := by
      rw [hin]; exact hrx
    obtain ⟨status, h6, -, h⟩ := RawCommand_ok p cmd data _ [] hw hrx1
    have hs : status = 0x01 := by
      have h6' : index [0xAA, 0xDD, 0x00, 0x04, 0x01, 0x0C, 0x01, 0x0C] 6 = some 0x01 := by
        decide
      rw [h6'] at h6
      exact (Option.some.inj h6).symm
    rw [hs] at h
    exact ⟨_, h⟩
  refine ⟨hraw, ?_⟩
  obtain ⟨p1, h⟩ := hraw CommandRead []
  exact ⟨p1, by simp [ReadTag, h, StatusOK, StatusNoTag]⟩

/-- C11 on a port whose `Write` succeeds and that has made no call yet. -/
theorem ReadTag_no_tag_response_witness :
    ReadTag ⟨none, [0xAA, 0xDD, 0x00, 0x04, 0x01, 0x0C, 0x01, 0x0C], []⟩
        ≠ none ∧
    ∃ p1, ReadTag ⟨none, [0xAA, 0xDD, 0x00, 0x04, 0x01, 0x0C, 0x01, 0x0C], []⟩
      = some ((none, some DeviceError.ErrNoTag), p1) :=
  ⟨by decide,
    (ReadTag_no_tag_response.2.2
      ⟨none, [0xAA, 0xDD, 0x00, 0x04, 0x01, 0x0C, 0x01, 0x0C], []⟩ rfl rfl).2⟩

/-! ## Status check of the typed operations -/

theorem Info_of_RawCommand (d d1 : Port) (s : Nat) (ans : Option (List Nat))
    (err : Option DeviceError) (h : RawCommand d CommandInfo [] = some ((s, ans, err), d1)) :
    Info d = some ((if err ≠ none then ([], err)
      else if s ≠ StatusOK then ([], some (DeviceError.unexpectedStatus s))
      else (ans.getD [], none)), d1) := by
  simp only [Info, h, Option.bind_eq_bind, Option.some_bind]
  split_ifs <;> rfl

theorem Beep_of_RawCommand (d d1 : Port) (duration : Int) (s : Nat) (ans : Option (List Nat))
    (err : Option DeviceError)
    (h : RawCommand d CommandBeep (beepData duration) = some ((s, ans, err), d1)) :
    Beep d duration = some ((if err ≠ none then err
      else if s ≠ StatusOK then some (DeviceError.unexpectedStatus s) else none), d1) := by
  simp only [Beep, h, Option.bind_eq_bind, Option.some_bind]
  split_ifs <;> rfl

theorem ChangeLed_of_RawCommand (d d1 : Port) (mode s : Nat) (ans : Option (List Nat))
    (err : Option DeviceError)
    (h : RawCommand d CommandLed [mode % 256] = some ((s, ans, err), d1)) :
    ChangeLed d mode = some ((if err ≠ none then err
      else if s ≠ StatusOK then some (DeviceError.unexpectedStatus s) else none), d1) := by
  simp only [ChangeLed, h, Option.bind_eq_bind, Option.some_bind]
  split_ifs <;> rfl

/-- C12: `Info`, `Beep` and `ChangeLed` return no error exactly when their
`RawCommand` returns no error and status `0x00`. After a successful exchange with
status `s`: for `s != 0x00` each returns the unexpected-status error, whose text
ends in the decimal value of `s`; for `s = 0x00` `Info` returns the answer bytes
unchanged and `Beep` and `ChangeLed` return no error. -/
theorem typed_operations_status (d d1 : Port) (s : Nat) (ans : Option (List Nat))
    (err : Option DeviceError) (duration : Int) (mode : Nat) :
    (RawCommand d CommandInfo [] = some ((s, ans, err), d1) →
      ∃ str e, Info d = some ((str, e), d1) ∧ (e = none ↔ err = none ∧ s = 0x00) ∧
        (err = none → s ≠ 0x00 → str = [] ∧ e = some (DeviceError.unexpectedStatus s)) ∧
        (err = none → s = 0x00 → str = ans.getD [])) ∧
    (RawCommand d CommandBeep (beepData duration) = some ((s, ans, err), d1) →
      ∃ e, Beep d duration = some (e, d1) ∧ (e = none ↔ err = none ∧ s = 0x00) ∧
        (err = none → s ≠ 0x00 → e = some (DeviceError.unexpectedStatus s))) ∧
    (RawCommand d CommandLed [mode % 256] = some ((s, ans, err), d1) →
      ∃ e, ChangeLed d mode = some (e, d1) ∧ (e = none ↔ err = none ∧ s = 0x00) ∧
        (err = none → s ≠ 0x00 → e = some (DeviceError.unexpectedStatus s))) ∧
    (DeviceError.unexpectedStatus s).Error
      = "rfid: received unexpected status " ++ Nat.repr s := by
  refine ⟨?_, ?_, ?_, rfl⟩
  · intro h
    refine ⟨_, _, by rw [Info_of_RawCommand d d1 s ans err h], ?_, ?_, ?_⟩
    · by_cases he : err = none <;> by_cases hs : s = 0 <;> simp [he, hs, StatusOK]
    · intro he hs
      simp [he, hs, StatusOK]
    · intro he hs
      simp [he, hs, StatusOK]
  · intro h
    refine ⟨_, Beep_of_RawCommand d d1 duration s ans err h, ?_, ?_⟩
    · by_cases he : err = none <;> by_cases hs : s = 0 <;> simp [he, hs, StatusOK]
    · intro he hs
      simp [he, hs, StatusOK]
  · intro h
    refine ⟨_, ChangeLed_of_RawCommand d d1 mode s ans err h, ?_, ?_⟩
    · by_cases he : err = none <;> by_cases hs : s = 0 <;> simp [he, hs, StatusOK]
    · intro he hs
      simp [he, hs, StatusOK]

/-- C12 at an info exchange answered with status `0x01` and at a beep exchange
answered with status `0x00`. -/
theorem typed_operations_status_witness :
    (RawCommand ⟨none, [0xAA, 0xDD, 0x00, 0x04, 0x01, 0x02, 0x01, 0x02], []⟩ CommandInfo []
        = some ((0x01, some [], none), ⟨none, [], [[0xAA, 0xDD, 0x00, 0x03, 0x01, 0x02, 0x03]]⟩) ∧
      ∃ str e, Info ⟨none, [0xAA, 0xDD, 0x00, 0x04, 0x01, 0x02, 0x01, 0x02], []⟩
          = some ((str, e), ⟨none, [], [[0xAA, 0xDD, 0x00, 0x03, 0x01, 0x02, 0x03]]⟩) ∧
        (e = none ↔ (none : Option DeviceError) = none ∧ 0x01 = 0x00) ∧
        ((none : Option DeviceError) = none → 0x01 ≠ 0x00 →
          str = [] ∧ e = some (DeviceError.unexpectedStatus 0x01)) ∧
        ((none : Option DeviceError) = none → 0x01 = 0x00 → str = (some []).getD [])) ∧
    (RawCommand ⟨none, [0xAA, 0xDD, 0x00, 0x04, 0x01, 0x03, 0x00, 0x02], []⟩ CommandBeep
          (beepData 500000000)
        = some ((0x00, some [], none),
          ⟨none, [], [[0xAA, 0xDD, 0x00, 0x04, 0x01, 0x03, 0x7F, 0x7D]]⟩) ∧
      ∃ e, Beep ⟨none, [0xAA, 0xDD, 0x00, 0x04, 0x01, 0x03, 0x00, 0x02], []⟩ 500000000
          = some (e, ⟨none, [], [[0xAA, 0xDD, 0x00, 0x04, 0x01, 0x03, 0x7F, 0x7D]]⟩) ∧
        (e = none ↔ (none : Option DeviceError) = none ∧ 0x00 = 0x00) ∧
        ((none : Option DeviceError) = none → 0x00 ≠ 0x00 →
          e = some (DeviceError.unexpectedStatus 0x00))) ∧
    (DeviceError.unexpectedStatus 0x01).Error = "rfid: received unexpected status 1" :=
  ⟨⟨by decide,
      (typed_operations_status ⟨none, [0xAA, 0xDD, 0x00, 0x04, 0x01, 0x02, 0x01, 0x02], []⟩
        ⟨none, [], [[0xAA, 0xDD, 0x00, 0x03, 0x01, 0x02, 0x03]]⟩ 0x01 (some []) none 0 0).1
        (by decide)⟩,
    ⟨by decide,
      (typed_operations_status ⟨none, [0xAA, 0xDD, 0x00, 0x04, 0x01, 0x03, 0x00, 0x02], []⟩
        ⟨none, [], [[0xAA, 0xDD, 0x00, 0x04, 0x01, 0x03, 0x7F, 0x7D]]⟩ 0x00 (some []) none
        500000000 0).2.1 (by decide)⟩,
    by decide⟩

/-! ## One request per operation -/

theorem ReadTag_total (p : Port) :
    ∃ res p1, ReadTag p = some (res, p1) ∧ p1.writes = p.writes ++ [frame CommandRead []] := by
  obtain ⟨⟨status, answer, err⟩, p1, hraw, hw⟩ := RawCommand_total p CommandRead []
  refine ⟨if err ≠ none then (none, err)
      else if status = StatusOK then (answer, none)
      else if status = StatusNoTag then (none, some DeviceError.ErrNoTag)
      else (none, some (DeviceError.unexpectedStatusAnswer status answer)), p1, ?_, hw⟩
  simp only [ReadTag, hraw, Option.bind_eq_bind, Option.some_bind]
  split_ifs <;> rfl

theorem toByte_lt (units : Int) : toByte units < 256 := by
  have h1 : 0 ≤ units % 256 := Int.emod_nonneg _ (by decide)
  have h2 : units % 256 < 256 := Int.emod_lt_of_pos _ (by decide)
  simp only [toByte]
  omega

/-- C13: on every port each typed operation returns having called `Write` exactly
once, with the `newRequest` of its command and data: `Info` with
`AA DD 00 03 01 02 03`, `ReadTag` with `AA DD 00 03 01 0C 0D`, `ChangeLed(m)` with
`newRequest(0x0104, [m])` for every byte `m`, and `Beep(d)` with
`newRequest(0x0103, [u])` for one byte `u`. -/
theorem typed_operations_write_once (p : Port) :
    (newRequest 0x0102 [] = some [0xAA, 0xDD, 0x00, 0x03, 0x01, 0x02, 0x03] ∧
      ∃ res p1, Info p = some (res, p1) ∧
        p1.writes = p.writes ++ [[0xAA, 0xDD, 0x00, 0x03, 0x01, 0x02, 0x03]]) ∧
    (newRequest 0x010C [] = some [0xAA, 0xDD, 0x00, 0x03, 0x01, 0x0C, 0x0D] ∧
      ∃ res p1, ReadTag p = some (res, p1) ∧
        p1.writes = p.writes ++ [[0xAA, 0xDD, 0x00, 0x03, 0x01, 0x0C, 0x0D]]) ∧
    (∀ m : Nat, m < 256 → ∃ res p1 req, ChangeLed p m = some (res, p1) ∧
      newRequest 0x0104 [m] = some req ∧ p1.writes = p.writes ++ [req]) ∧
    (∀ duration : Int, ∃ res p1 req u, Beep p duration = some (res, p1) ∧ u < 256 ∧
      newRequest 0x0103 [u] = some req ∧ p1.writes = p.writes ++ [req]) ∧
    LedOff = 0x00 ∧ LedRed = 0x01 ∧ LedGreen = 0x02 := by
  refine ⟨⟨by decide, ?_⟩, ⟨by decide, ?_⟩, ?_, ?_, rfl, rfl, rfl⟩
  · obtain ⟨⟨status, answer, err⟩, p1, hraw, hw⟩ := RawCommand_total p CommandInfo []
    exact ⟨_, p1, Info_of_RawCommand p p1 status answer err hraw, hw⟩
  · obtain ⟨res, p1, h, hw⟩ := ReadTag_total p
    exact ⟨res, p1, h, hw⟩
  · intro m hm
    obtain ⟨⟨status, answer, err⟩, p1, hraw, hw⟩ := RawCommand_total p CommandLed [m % 256]
    rw [Nat.mod_eq_of_lt hm] at hw
    exact ⟨_, p1, _, ChangeLed_of_RawCommand p p1 m status answer err hraw,
      newRequest_eq_frame _ _, hw⟩
  · intro duration
    obtain ⟨res, p1, req, h, hreq, hw⟩ := Beep_sends duration p
    exact ⟨res, p1, req, _, h, toByte_lt (beepUnits duration), hreq, hw⟩

/-- C13 at switching the LED to green on a port whose `Write` fails. -/
theorem typed_operations_write_once_witness :
    LedGreen < 256 ∧
    ∃ res p1 req, ChangeLed ⟨some "closed", [], []⟩ LedGreen = some (res, p1) ∧
      newRequest 0x0104 [LedGreen] = some req ∧
      p1.writes = (⟨some "closed", [], []⟩ : Port).writes ++ [req] :=
  ⟨by decide, (typed_operations_write_once ⟨some "closed", [], []⟩).2.2.1 LedGreen (by decide)⟩

/-! ## Truncated frames -/

/-- C14: a stream that starts with `AA DD` and a declared length `L >= 4` and
then ends before `L` more bytes fails in `rx` with the payload read error,
whatever the bytes supplied; that error is none of the header, prefix, length or
checksum errors. -/
theorem rx_truncated_payload (c d : Nat) (rest : List Nat) (hL : 4 ≤ c * 256 + d)
    (hshort : rest.length < c * 256 + d) :
    rx (0xAA :: 0xDD :: c :: d :: rest) = some ((none, some (RxError.payloadRead
      (if rest.length = 0 then IoError.EOF else IoError.ErrUnexpectedEOF))), []) ∧
    (∀ e e1 : IoError, RxError.payloadRead e ≠ RxError.headerRead e1 ∧
      RxError.payloadRead e ≠ RxError.badHeader ∧
      RxError.payloadRead e ≠ RxError.invalidLength ∧
      RxError.payloadRead e ≠ RxError.badChecksum ∧
      (RxError.payloadRead e).Error = "payload read error: " ++ e.Error) := by
  constructor
  · have hp : ¬ (0xAA * 256 + 0xDD ≠ msgPrefix) := by decide
    have h4 : ¬ (c * 256 + d < 4) := by omega
    rw [rx_cons, if_neg hp, if_neg h4, if_pos hshort]
  · intro e e1
    exact ⟨by simp, by simp, by simp, by simp, rfl⟩

/-- C14 at a frame of declared length 4 cut after three payload bytes, the last
of which would be a wrong checksum. -/
theorem rx_truncated_payload_witness :
    (4 ≤ 0x00 * 256 + 0x04 ∧ [0x01, 0x0C, 0xFF].length < 0x00 * 256 + 0x04) ∧
    rx [0xAA, 0xDD, 0x00, 0x04, 0x01, 0x0C, 0xFF]
      = some ((none, some (RxError.payloadRead IoError.ErrUnexpectedEOF)), []) :=
  ⟨⟨by decide, by decide⟩,
    (rx_truncated_payload 0x00 0x04 [0x01, 0x0C, 0xFF] (by decide) (by decide)).1⟩

/-! ## Characterisation of the decoder -/

theorem take_split_last (l : List Nat) (L : Nat) (h1 : 1 ≤ L) (h2 : L ≤ l.length) :
    l.take L = l.take (L - 1) ++ [l.getD (L - 1) 0] := by
  obtain ⟨n, rfl⟩ : ∃ n, L = n + 1 := ⟨L - 1, by omega⟩
  have hn : n < l.length := by omega
  rw [List.take_succ, Nat.add_sub_cancel, List.getD_eq_getElem?_getD,
    List.getElem?_eq_getElem hn]
  rfl

theorem wellFramed_cons (a b c d : Nat) (rest0 : List Nat) :
    wellFramed (a :: b :: c :: d :: rest0) ↔
      a = 0xAA ∧ b = 0xDD ∧ 4 ≤ c * 256 + d ∧ c * 256 + d ≤ rest0.length ∧
      rest0.getD (c * 256 + d - 1) 0 = xorChecksum (rest0.take (c * 256 + d - 1)) := by
  have hdl : declaredLength (a :: b :: c :: d :: rest0) = c * 256 + d := rfl
  have key : 4 ≤ c * 256 + d →
      ((a :: b :: c :: d :: rest0).getD (4 + (c * 256 + d) - 1) 0
          = rest0.getD (c * 256 + d - 1) 0 ∧
        ((a :: b :: c :: d :: rest0).take (4 + (c * 256 + d) - 1)).drop 4
          = rest0.take (c * 256 + d - 1)) := by
    intro h4
    have : 4 + (c * 256 + d) - 1 = (c * 256 + d - 1) + 1 + 1 + 1 + 1 := by omega
    rw [this]
    exact ⟨rfl, rfl⟩
  simp only [wellFramed, hdl, List.length_cons, List.getD_cons_zero, List.getD_cons_succ]
  constructor
  · rintro ⟨-, ha, hb, h4, hle, hck⟩
    rw [(key h4).1, (key h4).2] at hck
    exact ⟨ha, hb, h4, by omega, hck⟩
  · rintro ⟨ha, hb, h4, hle, hck⟩
    rw [← (key h4).1, ← (key h4).2] at hck
    exact ⟨by omega, ha, hb, h4, by omega, hck⟩

theorem rx_of_wellFramed (s : List Nat) (h : wellFramed s) :
    rx s = some ((some (s.take (4 + declaredLength s)), none),
      s.drop (4 + declaredLength s)) := by
  obtain ⟨a, b, c, d, rest0, rfl⟩ : ∃ a b c d rest0, s = a :: b :: c :: d :: rest0 := by
    match s, h.1 with
    | a :: b :: c :: d :: rest0, _ => exact ⟨a, b, c, d, rest0, rfl⟩
    | [], h | [_], h | [_, _], h | [_, _, _], h => simp at h
  obtain ⟨ha, hb, h4, hle, hck⟩ := (wellFramed_cons a b c d rest0).mp h
  have hdl : declaredLength (a :: b :: c :: d :: rest0) = c * 256 + d := rfl
  have hsplit := take_split_last rest0 (c * 256 + d) (by omega) hle
  have h1 : ¬ (a * 256 + b ≠ msgPrefix) := by
    rw [ha, hb]; decide
  have h2 : ¬ (c * 256 + d < 4) := by omega
  have h3 : ¬ (rest0.length < c * 256 + d) := by omega
  have h5 : ¬ ((rest0.take (c * 256 + d)).getLastD 0
      ≠ xorChecksum (rest0.take (c * 256 + d)).dropLast) := by
    rw [hsplit, List.getLastD_concat, List.dropLast_concat]
    exact not_not.mpr hck
  rw [rx_cons, if_neg h1, if_neg h2, if_neg h3, if_neg h5, hdl]
  have : 4 + (c * 256 + d) = (c * 256 + d) + 1 + 1 + 1 + 1 := by omega
  rw [this]
  simp only [List.take_succ_cons, List.drop_succ_cons]

theorem rx_of_not_wellFramed (s : List Nat) (hb : ∀ x ∈ s, x < 256) (h : ¬ wellFramed s) :
    ∃ e rest, rx s = some ((none, some e), rest) := by
  by_cases hlen : s.length < 4
  · exact ⟨_, _, rx_short s hlen⟩
  obtain ⟨a, b, c, d, rest0, rfl⟩ : ∃ a b c d rest0, s = a :: b :: c :: d :: rest0 := by
    match s, hlen with
    | a :: b :: c :: d :: rest0, _ => exact ⟨a, b, c, d, rest0, rfl⟩
    | [], h | [_], h | [_, _], h | [_, _, _], h => simp at h
  rw [rx_cons]
  by_cases h1 : a * 256 + b ≠ msgPrefix
  · exact ⟨_, _, by rw [if_pos h1]⟩
  by_cases h2 : c * 256 + d < 4
  · exact ⟨_, _, by rw [if_neg h1, if_pos h2]⟩
  by_cases h3 : rest0.length < c * 256 + d
  · exact ⟨_, _, by rw [if_neg h1, if_neg h2, if_pos h3]⟩
  by_cases h5 : (rest0.take (c * 256 + d)).getLastD 0
      ≠ xorChecksum (rest0.take (c * 256 + d)).dropLast
  · exact ⟨_, _, by rw [if_neg h1, if_neg h2, if_neg h3, if_pos h5]⟩
  exfalso
  apply h
  have ha : a < 256 := hb a (by simp)
  have hb2 : b < 256 := hb b (by simp)
  have hp : a * 256 + b = 43741 := not_not.mp h1
  have hsplit := take_split_last rest0 (c * 256 + d) (by omega) (by omega)
  rw [hsplit, List.getLastD_concat, List.dropLast_concat] at h5
  exact (wellFramed_cons a b c d rest0).mpr
    ⟨by omega, by omega, by omega, by omega, not_not.mp h5⟩

/-- C15: on a finite byte stream `s`, `rx` returns no error exactly when `s` is
well framed (at least 4 bytes, prefix `AA DD`, declared length `L >= 4`, at least
`4+L` bytes, `s[4+L-1]` the exclusive-or of `s[4 .. 4+L-2]`). It then returns the
first `4+L` bytes of `s` and leaves the reader at the bytes after them; the
length field of the frame is the number of bytes after it and the last byte of
the frame is the exclusive-or of the bytes between the length field and it. -/
theorem rx_characterisation (s : List Nat) (hb : ∀ x ∈ s, x < 256) :
    ((∃ buf rest, rx s = some ((buf, none), rest)) ↔ wellFramed s) ∧
    (∀ buf rest, rx s = some ((buf, none), rest) →
      ∃ f, buf = some f ∧ f = s.take (4 + declaredLength s) ∧
        rest = s.drop (4 + declaredLength s) ∧ f ++ rest = s ∧
        f.length = 4 + declaredLength s ∧
        Uint16 (f.drop 2) = some (f.drop 4).length ∧
        ∃ last cov, index f (f.length - 1) = some last ∧
          slice f 4 (f.length - 1) = some cov ∧ last = xorChecksum cov) := by
  have hwf : ∀ buf rest, rx s = some ((buf, none), rest) → wellFramed s := by
    intro buf rest h
    by_contra hn
    obtain ⟨e, r, he⟩ := rx_of_not_wellFramed s hb hn
    rw [he] at h
    simp at h
  refine ⟨⟨fun ⟨buf, rest, h⟩ => hwf buf rest h, fun h => ⟨_, _, rx_of_wellFramed s h⟩⟩, ?_⟩
  intro buf rest h
  have hw := hwf buf rest h
  have hrx := rx_of_wellFramed s hw
  have heq := h.symm.trans hrx
  simp only [Option.some.injEq, Prod.mk.injEq, and_true] at heq
  obtain ⟨hbuf, hrest⟩ := heq
  obtain ⟨a, b, c, d, x, body, hs, hf, hp, hL, h4, hx⟩ :=
    rx_accept_parts s (s.take (4 + declaredLength s)) (s.drop (4 + declaredLength s)) hrx
  refine ⟨_, hbuf, rfl, hrest, ?_, ?_, ?_, ?_⟩
  · rw [hrest]
    exact List.take_append_drop _ _
  · rw [List.length_take]
    have := hw.2.2.2.2.1
    omega
  · rw [hf]
    simp only [List.drop_succ_cons, List.drop_zero, Uint16, List.length_append,
      List.length_singleton, hL]
  · rw [hf]
    have hne : body ++ [x] ≠ [] := by simp
    refine ⟨x, body, ?_, ?_, hx⟩
    · have := index_last_append [a, b, c, d] (body ++ [x]) hne
      simpa using this
    · have := slice_four_last a b c d (body ++ [x]) hne
      rwa [List.dropLast_concat] at this

/-- C15 at a frame of declared length 4 followed by two more bytes. -/
theorem rx_characterisation_witness :
    (∀ x ∈ [0xAA, 0xDD, 0x00, 0x04, 0x01, 0x0C, 0x01, 0x0C, 0x05, 0x06], x < 256) ∧
    wellFramed [0xAA, 0xDD, 0x00, 0x04, 0x01, 0x0C, 0x01, 0x0C, 0x05, 0x06] ∧
    ∃ buf rest, rx [0xAA, 0xDD, 0x00, 0x04, 0x01, 0x0C, 0x01, 0x0C, 0x05, 0x06]
      = some ((buf, none), rest) :=
  ⟨by decide, by decide,
    (rx_characterisation [0xAA, 0xDD, 0x00, 0x04, 0x01, 0x0C, 0x01, 0x0C, 0x05, 0x06]
      (by decide)).1.mpr (by decide)⟩

/-! ## Error propagation of `RawCommand` -/

/-- The decoder returns either an error and no frame, or a frame and no error. -/
theorem rx_result_cases (r : List Nat) :
    (∃ e rest, rx r = some ((none, some e), rest)) ∨
    (∃ f rest, rx r = some ((some f, none), rest)) := by
  by_cases hlen : r.length < 4
  · exact Or.inl ⟨_, _, rx_short r hlen⟩
  obtain ⟨a, b, c, d, rest0, rfl⟩ : ∃ a b c d rest0, r = a :: b :: c :: d :: rest0 := by
    match r, hlen with
    | a :: b :: c :: d :: rest0, _ => exact ⟨a, b, c, d, rest0, rfl⟩
    | [], h | [_], h | [_, _], h | [_, _, _], h => simp at h
  rw [rx_cons]
  by_cases h1 : a * 256 + b ≠ msgPrefix
  · exact Or.inl ⟨_, _, by rw [if_pos h1]⟩
  by_cases h2 : c * 256 + d < 4
  · exact Or.inl ⟨_, _, by rw [if_neg h1, if_pos h2]⟩
  by_cases h3 : rest0.length < c * 256 + d
  · exact Or.inl ⟨_, _, by rw [if_neg h1, if_neg h2, if_pos h3]⟩
  by_cases h5 : (rest0.take (c * 256 + d)).getLastD 0
      ≠ xorChecksum (rest0.take (c * 256 + d)).dropLast
  · exact Or.inl ⟨_, _, by rw [if_neg h1, if_neg h2, if_neg h3, if_pos h5]⟩
  · exact Or.inr ⟨_, _, by rw [if_neg h1, if_neg h2, if_neg h3, if_neg h5]⟩

/-- C16: `RawCommand` always returns, having called `Write` once with the request
frame. It returns an error exactly when `Write` fails or `rx` fails on the
response stream, and then status 0 and a nil answer; the error wraps the write
error or the `rx` error. When `Write` fails the response stream is left as it
was; otherwise `rx` runs once on it. When both succeed the status and answer are
`resp[6]` and `resp[7 : len-1]` of the frame `rx` accepted. -/
theorem RawCommand_error_propagation (d : Port) (cmd : Nat) (data : List Nat) :
    ∃ s ans err d1, RawCommand d cmd data = some ((s, ans, err), d1) ∧
      (err ≠ none ↔
        d.writeErr ≠ none ∨ ∃ buf e r, rx d.input = some ((buf, some e), r)) ∧
      (err ≠ none → s = 0 ∧ ans = none) ∧
      (∀ e, d.writeErr = some e → err = some (DeviceError.sending e) ∧ d1.input = d.input) ∧
      (∀ buf e r, d.writeErr = none → rx d.input = some ((buf, some e), r) →
        err = some (DeviceError.reading e) ∧ d1.input = r) ∧
      (∀ resp r, d.writeErr = none → rx d.input = some ((some resp, none), r) →
        err = none ∧ index resp 6 = some s ∧ slice resp 7 (resp.length - 1) = ans ∧
        d1.input = r) ∧
      d1.writes = d.writes ++ [frame cmd data] ∧
      newRequest cmd data = some (frame cmd data) ∧
      d1.writeErr = d.writeErr := by
  cases hw : d.writeErr with
  | some werr =>
    refine ⟨_, _, _, _, RawCommand_writeErr d cmd data werr hw, ?_, ?_, ?_, ?_, ?_, rfl,
      newRequest_eq_frame cmd data, hw⟩
    · simp
    · intro _
      exact ⟨rfl, rfl⟩
    · intro e he
      simp only [Option.some.injEq] at he
      rw [he]
      exact ⟨rfl, rfl⟩
    · intro buf e r he
      simp at he
    · intro resp r he
      simp at he
  | none =>
    rcases rx_result_cases d.input with ⟨e, rest, hrx⟩ | ⟨f, rest, hrx⟩
    · refine ⟨_, _, _, _, RawCommand_rxErr d cmd data none e rest hw hrx, ?_, ?_, ?_, ?_, ?_,
        rfl, newRequest_eq_frame cmd data, hw⟩
      · simp only [ne_eq, reduceCtorEq, not_false_eq_true, not_true_eq_false, false_or, true_iff]
        exact ⟨_, _, _, hrx⟩
      · intro _
        exact ⟨rfl, rfl⟩
      · intro e1 he
        simp at he
      · intro buf e1 r _ h1
        rw [hrx] at h1
        simp only [Option.some.injEq, Prod.mk.injEq] at h1
        rw [h1.1.2, h1.2]
        exact ⟨rfl, rfl⟩
      · intro resp r _ h1
        rw [hrx] at h1
        simp at h1
    · obtain ⟨status, h6, h7, hraw⟩ := RawCommand_ok d cmd data f rest hw hrx
      refine ⟨_, _, _, _, hraw, ?_, ?_, ?_, ?_, ?_, rfl, newRequest_eq_frame cmd data,
        hw⟩
      · simp only [ne_eq, not_true_eq_false, false_or, false_iff, not_exists]
        intro buf e r h1
        rw [hrx] at h1
        simp at h1
      · intro h
        exact absurd rfl h
      · intro e1 he
        simp at he
      · intro buf e1 r _ h1
        rw [hrx] at h1
        simp at h1
      · intro resp r _ h1
        rw [hrx] at h1
        simp only [Option.some.injEq, Prod.mk.injEq, and_true] at h1
        rw [← h1.1, ← h1.2]
        exact ⟨rfl, h6, h7, rfl⟩

/-! ## Requests the decoder rejects -/

theorem rx_frame_nil (cmd : Nat) :
    rx (frame cmd []) = some ((none, some RxError.invalidLength), (frame cmd []).drop 4) := by
  have hf : frame cmd [] = 0xAA :: 0xDD :: 0 :: 3 :: (covered cmd []
      ++ [xorChecksum (covered cmd [])]) := rfl
  have hp : ¬ (0xAA * 256 + 0xDD ≠ msgPrefix) := by decide
  have hl : 0 * 256 + 3 < 4 := by decide
  rw [hf, rx_cons, if_neg hp, if_pos hl]
  rfl

/-- C17: for a 16-bit command and data of at most 65532 bytes, `rx` accepts the
stream `newRequest(cmd, data)` exactly when the data is not empty; a request with
empty data declares length 3 and is rejected with "invalid payload length value",
as are the requests `Info` and `ReadTag` send. -/
theorem rx_newRequest_accept_iff (cmd : Nat) (data : List Nat) (hcmd : cmd < 65536)
    (hlen : data.length ≤ 65532) :
    ∃ req, newRequest cmd data = some req ∧
      ((∃ buf rest, rx req = some ((buf, none), rest)) ↔ 1 ≤ data.length) ∧
      (data = [] → Uint16 (req.drop 2) = some 3 ∧
        rx req = some ((none, some RxError.invalidLength), req.drop 4)) ∧
      RxError.invalidLength.Error = "invalid payload length value" ∧
      rx [0xAA, 0xDD, 0x00, 0x03, 0x01, 0x02, 0x03]
        = some ((none, some RxError.invalidLength), [0x01, 0x02, 0x03]) ∧
      rx [0xAA, 0xDD, 0x00, 0x03, 0x01, 0x0C, 0x0D]
        = some ((none, some RxError.invalidLength), [0x01, 0x0C, 0x0D]) := by
  refine ⟨frame cmd data, newRequest_eq_frame cmd data, ?_, ?_, rfl, by decide, by decide⟩
  · cases data with
    | nil =>
      rw [rx_frame_nil]
      simp
    | cons s a =>
      have ha : a.length + 4 ≤ 65535 := by
        simp only [List.length_cons] at hlen
        omega
      rw [rx_frame_cons cmd s a hcmd ha]
      simp
  · intro hd
    subst hd
    exact ⟨rfl, rx_frame_nil cmd⟩

/-- C17 at the request `Info` sends and at a beep request. -/
theorem rx_newRequest_accept_iff_witness :
    (∃ req, newRequest CommandInfo [] = some req ∧
      ((∃ buf rest, rx req = some ((buf, none), rest)) ↔ 1 ≤ ([] : List Nat).length) ∧
      (([] : List Nat) = [] → Uint16 (req.drop 2) = some 3 ∧
        rx req = some ((none, some RxError.invalidLength), req.drop 4)) ∧
      RxError.invalidLength.Error = "invalid payload length value" ∧
      rx [0xAA, 0xDD, 0x00, 0x03, 0x01, 0x02, 0x03]
        = some ((none, some RxError.invalidLength), [0x01, 0x02, 0x03]) ∧
      rx [0xAA, 0xDD, 0x00, 0x03, 0x01, 0x0C, 0x0D]
        = some ((none, some RxError.invalidLength), [0x01, 0x0C, 0x0D])) ∧
    ∃ buf rest, rx [0xAA, 0xDD, 0x00, 0x04, 0x01, 0x03, 0x7F, 0x7D]
      = some ((buf, none), rest) :=
  ⟨rx_newRequest_accept_iff CommandInfo [] (by decide) (by decide),
    ⟨some [0xAA, 0xDD, 0x00, 0x04, 0x01, 0x03, 0x7F, 0x7D], [], by decide⟩⟩

/-! ## The length field wraps -/

/-- C18: `newRequest` always returns, with `len(data)+7` bytes, of which
`len(data)+3` follow the length field; the length field holds
`(len(data)+3) mod 65536`, which for `len(data) >= 65533` is not the number of
bytes that follow it, and is 0 for `len(data) = 65533`. -/
theorem newRequest_length_wraps (cmd : Nat) (data : List Nat) :
    ∃ req, newRequest cmd data = some req ∧ req.length = data.length + 7 ∧
      (req.drop 4).length = data.length + 3 ∧
      Uint16 (req.drop 2) = some ((data.length + 3) % 65536) ∧
      (65533 ≤ data.length → (data.length + 3) % 65536 ≠ (req.drop 4).length) ∧
      (data.length = 65533 → Uint16 (req.drop 2) = some 0) := by
  have hU : Uint16 ((frame cmd data).drop 2) = some ((data.length + 3) % 65536) := by
    simp only [frame, List.cons_append, List.nil_append, List.drop_succ_cons, List.drop_zero,
      Uint16, Option.some.injEq]
    omega
  have hd : ((frame cmd data).drop 4).length = data.length + 3 := by
    simp [frame, covered]
  refine ⟨frame cmd data, newRequest_eq_frame cmd data, ?_, hd, hU, ?_, ?_⟩
  · simp [frame, covered]
  · intro h
    rw [hd]
    omega
  · intro h
    rw [hU, h]

/-- C18 at a beep request with 65533 data bytes. -/
theorem newRequest_length_wraps_witness :
    (65533 ≤ (List.replicate 65533 0).length ∧ (List.replicate 65533 0).length = 65533) ∧
    ∃ req, newRequest 0x0103 (List.replicate 65533 0) = some req ∧
      req.length = (List.replicate 65533 0).length + 7 ∧
      (req.drop 4).length = (List.replicate 65533 0).length + 3 ∧
      Uint16 (req.drop 2) = some (((List.replicate 65533 0).length + 3) % 65536) ∧
      (65533 ≤ (List.replicate 65533 0).length →
        ((List.replicate 65533 0).length + 3) % 65536 ≠ (req.drop 4).length) ∧
      ((List.replicate 65533 0).length = 65533 → Uint16 (req.drop 2) = some 0) :=
  ⟨⟨Nat.le_of_eq (List.length_replicate _ _).symm, List.length_replicate _ _⟩,
    newRequest_length_wraps 0x0103 (List.replicate 65533 0)⟩

/-! ## The response's command field -/

/-- C19: `RawCommand` does not compare the command field of the response with the
request. Whatever the request, two ports whose response streams `rx` accepts as
frames with the same `resp[6]` and the same `resp[7 : len-1]` (and any command
bytes) give the same status and answer, with no error. -/
theorem RawCommand_ignores_response_command (d1 d2 : Port) (cmd : Nat) (data : List Nat)
    (resp1 resp2 r1 r2 : List Nat) (hw1 : d1.writeErr = none) (hw2 : d2.writeErr = none)
    (h1 : rx d1.input = some ((some resp1, none), r1))
    (h2 : rx d2.input = some ((some resp2, none), r2))
    (hs : index resp1 6 = index resp2 6)
    (ha : slice resp1 7 (resp1.length - 1) = slice resp2 7 (resp2.length - 1)) :
    ∃ s a p1 p2, index resp1 6 = some s ∧ slice resp1 7 (resp1.length - 1) = some a ∧
      RawCommand d1 cmd data = some ((s, some a, none), p1) ∧
      RawCommand d2 cmd data = some ((s, some a, none), p2) := by
  obtain ⟨s1, hi1, hsl1, hraw1⟩ := RawCommand_ok d1 cmd data resp1 r1 hw1 h1
  obtain ⟨s2, hi2, hsl2, hraw2⟩ := RawCommand_ok d2 cmd data resp2 r2 hw2 h2
  have hs12 : s2 = s1 := by
    rw [hi1, hi2] at hs
    exact (Option.some.inj hs).symm
  have ha12 : (resp2.take (resp2.length - 1)).drop 7 = (resp1.take (resp1.length - 1)).drop 7 := by
    rw [hsl1, hsl2] at ha
    exact (Option.some.inj ha).symm
  rw [hs12, ha12] at hraw2
  exact ⟨s1, _, _, _, hi1, hsl1, hraw1, hraw2⟩

/-- C19 at the request of `Info` (command `0x0102`), answered on one port by a
frame with command `0x0102` and on the other by a frame with command `0x010C`. -/
theorem RawCommand_ignores_response_command_witness :
    (Uint16 (List.drop 4 [0xAA, 0xDD, 0x00, 0x04, 0x01, 0x02, 0x00, 0x03]) = some 0x0102 ∧
      Uint16 (List.drop 4 [0xAA, 0xDD, 0x00, 0x04, 0x01, 0x0C, 0x00, 0x0D]) = some 0x010C) ∧
    ∃ s a p1 p2, index [0xAA, 0xDD, 0x00, 0x04, 0x01, 0x02, 0x00, 0x03] 6 = some s ∧
      slice [0xAA, 0xDD, 0x00, 0x04, 0x01, 0x02, 0x00, 0x03] 7
        ([0xAA, 0xDD, 0x00, 0x04, 0x01, 0x02, 0x00, 0x03].length - 1) = some a ∧
      RawCommand ⟨none, [0xAA, 0xDD, 0x00, 0x04, 0x01, 0x02, 0x00, 0x03], []⟩ CommandInfo []
        = some ((s, some a, none), p1) ∧
      RawCommand ⟨none, [0xAA, 0xDD, 0x00, 0x04, 0x01, 0x0C, 0x00, 0x0D], []⟩ CommandInfo []
        = some ((s, some a, none), p2) :=
  ⟨⟨by decide, by decide⟩,
    RawCommand_ignores_response_command
      ⟨none, [0xAA, 0xDD, 0x00, 0x04, 0x01, 0x02, 0x00, 0x03], []⟩
      ⟨none, [0xAA, 0xDD, 0x00, 0x04, 0x01, 0x0C, 0x00, 0x0D], []⟩ CommandInfo []
      [0xAA, 0xDD, 0x00, 0x04, 0x01, 0x02, 0x00, 0x03]
      [0xAA, 0xDD, 0x00, 0x04, 0x01, 0x0C, 0x00, 0x0D] [] [] rfl rfl (by decide) (by decide)
      (by decide) (by decide)⟩

end Rfid
